import Mathlib

/-!
Shallow embedding of the school-billing core (invoice total engine, payment
ledger, statement aggregator) of the `school-billing-api` repository.

Monetary amounts are exact decimals in the source (`Numeric(10, 2)` columns and
Python `Decimal`); they are embedded as `Int` (a fixed number of cents), which
is closed under the additions, subtractions and integer-by-decimal
multiplications the code performs.  Calendar dates are embedded as `Int`
ordinals, timestamps (`deleted_at`) as `Option Nat` (`none` = SQL NULL).  Each
SQLAlchemy table is a `List` of records inside a `DB` record; `db.query(...)
.filter(...)` becomes `List.filter`, `.first()` becomes `List.find?`,
aggregate `SUM(...)` coalesced to zero becomes a list sum (empty sum is `0`),
and a SQL join becomes a nested sum over the joined table.
-/

namespace SchoolBilling

/-- Embeds `InvoiceStatus` from `app/models/invoice.py`. -/
inductive InvoiceStatus where
  | pending
  | paid
  | overdue
  | cancelled
deriving DecidableEq

/-- Embeds `PaymentMethod` from `app/models/payment.py`. -/
inductive PaymentMethod where
  | cash
  | card
  | transfer
  | check
deriving DecidableEq

/-- Embeds the `School` model (`app/models/school.py`); only the columns the
core reads are kept. -/
structure School where
  id : Nat
  name : String
  deletedAt : Option Nat
deriving DecidableEq

/-- Embeds the `Student` model (`app/models/student.py`); only the columns the
core reads are kept. -/
structure Student where
  id : Nat
  schoolId : Nat
  firstName : String
  lastName : String
  deletedAt : Option Nat
deriving DecidableEq

/-- Embeds the `Invoice` model (`app/models/invoice.py`). -/
structure Invoice where
  id : Nat
  studentId : Nat
  issueDate : Int
  dueDate : Int
  total_amount : Int
  status : InvoiceStatus
  deletedAt : Option Nat
deriving DecidableEq

/-- Embeds the `InvoiceItem` model (`app/models/invoice_item.py`). -/
structure InvoiceItem where
  id : Nat
  invoiceId : Nat
  description : String
  quantity : Int
  unitPrice : Int
  total_amount : Int
  deletedAt : Option Nat
deriving DecidableEq

/-- Embeds the `Payment` model (`app/models/payment.py`). -/
structure Payment where
  id : Nat
  invoiceId : Nat
  paymentDate : Int
  amount : Int
  paymentMethod : PaymentMethod
  deletedAt : Option Nat
deriving DecidableEq

/-- The ledger store: one list per table, a single id sequence (`nextId`) for
freshly persisted rows and the current clock (`now`, used for `deleted_at`
stamps). -/
structure DB where
  schools : List School
  students : List Student
  invoices : List Invoice
  items : List InvoiceItem
  payments : List Payment
  nextId : Nat
  now : Nat
deriving DecidableEq

/-- Sum of `f` over a list; the embedding of an aggregate
`COALESCE(SUM(...), 0)` query (the empty sum is `0`). -/
def sumBy (l : List α) (f : α → Int) : Int :=
  (l.map f).sum

/-- The item query of `InvoiceService.recalculate_total`, on a raw item
table: `InvoiceItem.invoice_id == invoice.id AND InvoiceItem.deleted_at IS
NULL`. -/
def liveItemsOf (items : List InvoiceItem) (invoiceId : Nat) : List InvoiceItem :=
  items.filter (fun it => it.invoiceId == invoiceId && it.deletedAt.isNone)

/-- Sum of `total_amount` over the non-deleted items of an invoice, on a raw
item table. -/
def itemsSumOf (items : List InvoiceItem) (invoiceId : Nat) : Int :=
  sumBy (liveItemsOf items invoiceId) (·.total_amount)

/-- Embeds the item query of `InvoiceService.recalculate_total`. -/
def DB.liveItems (db : DB) (invoiceId : Nat) : List InvoiceItem :=
  liveItemsOf db.items invoiceId

/-- Sum of `total_amount` over the non-deleted items of an invoice. -/
def DB.itemSum (db : DB) (invoiceId : Nat) : Int :=
  itemsSumOf db.items invoiceId

/-- The payment query of `PaymentService.create` /
`PaymentService.get_by_invoice`, on a raw payment table:
`Payment.invoice_id == invoice.id AND Payment.deleted_at IS NULL`. -/
def livePaymentsOf (payments : List Payment) (invoiceId : Nat) : List Payment :=
  payments.filter (fun p => p.invoiceId == invoiceId && p.deletedAt.isNone)

/-- Sum of `amount` over the non-deleted payments of an invoice, on a raw
payment table. -/
def paymentsSumOf (payments : List Payment) (invoiceId : Nat) : Int :=
  sumBy (livePaymentsOf payments invoiceId) (·.amount)

/-- Embeds the payment query of `PaymentService.create`. -/
def DB.livePayments (db : DB) (invoiceId : Nat) : List Payment :=
  livePaymentsOf db.payments invoiceId

/-- Sum of `amount` over the non-deleted payments of an invoice
(`total_paid` in `PaymentService.create`). -/
def DB.paidSum (db : DB) (invoiceId : Nat) : Int :=
  paymentsSumOf db.payments invoiceId

/-- Embeds the `InvoiceItemCreate` request schema
(`app/schemas/invoice.py`). -/
structure InvoiceItemCreate where
  description : String
  quantity : Int
  unitPrice : Int
deriving DecidableEq

/-- The `InvoiceItemCreate` field validators: `quantity` strictly positive,
`unit_price` non-negative. -/
def InvoiceItemCreate.valid (it : InvoiceItemCreate) : Prop :=
  0 < it.quantity ∧ 0 ≤ it.unitPrice

/-- Embeds the `InvoiceCreate` request schema (`app/schemas/invoice.py`). -/
structure InvoiceCreate where
  studentId : Nat
  issueDate : Int
  dueDate : Int
  status : InvoiceStatus
  items : List InvoiceItemCreate
deriving DecidableEq

/-- The `InvoiceCreate` validator: the item list must be non-empty, and each
item must pass its own validators. -/
def InvoiceCreate.valid (inv : InvoiceCreate) : Prop :=
  inv.items ≠ [] ∧ ∀ it ∈ inv.items, it.valid

/-- Embeds the `PaymentCreate` request schema (`app/schemas/payment.py`). -/
structure PaymentCreate where
  paymentDate : Int
  amount : Int
  paymentMethod : PaymentMethod
deriving DecidableEq

/-- The `PaymentCreate` validator: `amount` strictly positive. -/
def PaymentCreate.valid (p : PaymentCreate) : Prop :=
  0 < p.amount

namespace InvoiceService

/-- Embeds `InvoiceService.recalculate_total` (`app/services/invoice_service.py`):
sum `total_amount` over the invoice's non-deleted items and assign it to
`invoice.total_amount`.  The ORM identifies the mutated row by its primary
key, hence the update by `id`. -/
def recalculate_total (invoiceId : Nat) (db : DB) : DB :=
  let total := db.itemSum invoiceId
  { db with
    invoices := db.invoices.map (fun inv =>
      if inv.id == invoiceId then { inv with total_amount := total } else inv) }

/-- Embeds `InvoiceService.get_by_id`: invoice by id, excluding
soft-deleted. -/
def get_by_id (invoiceId : Nat) (db : DB) : Option Invoice :=
  db.invoices.find? (fun inv => inv.id == invoiceId && inv.deletedAt.isNone)

/-- Helper for `InvoiceService.create`: persist one `InvoiceItem` row per
requested item, with `total_amount = quantity * unit_price`, drawing fresh
ids from `startId` onwards. -/
def mkItems (invoiceId : Nat) (startId : Nat) : List InvoiceItemCreate → List InvoiceItem
  | [] => []
  | it :: rest =>
      { id := startId
        invoiceId := invoiceId
        description := it.description
        quantity := it.quantity
        unitPrice := it.unitPrice
        total_amount := it.quantity * it.unitPrice
        deletedAt := none } :: mkItems invoiceId (startId + 1) rest

/-- Embeds `InvoiceService.create`: total is the sum of
`quantity * unit_price` over the requested items; the invoice and its item
rows are persisted together. -/
def create (invoice_in : InvoiceCreate) (db : DB) : Invoice × DB :=
  let total_amount := sumBy invoice_in.items (fun it => it.quantity * it.unitPrice)
  let invoice : Invoice :=
    { id := db.nextId
      studentId := invoice_in.studentId
      issueDate := invoice_in.issueDate
      dueDate := invoice_in.dueDate
      total_amount := total_amount
      status := invoice_in.status
      deletedAt := none }
  let newItems := mkItems invoice.id (db.nextId + 1) invoice_in.items
  (invoice,
    { db with
      invoices := db.invoices ++ [invoice]
      items := db.items ++ newItems
      nextId := db.nextId + 1 + invoice_in.items.length })

/-- Embeds `InvoiceService.cancel`: set the status to CANCELLED (pure status
transition, no recalculation). -/
def cancel (invoice : Invoice) (db : DB) : DB :=
  { db with
    invoices := db.invoices.map (fun inv =>
      if inv.id == invoice.id then { inv with status := .cancelled } else inv) }

/-- Embeds `InvoiceService.add_item`: persist the new item with
`total_amount = quantity * unit_price`, then recalculate the invoice
total. -/
def add_item (invoice : Invoice) (item_in : InvoiceItemCreate) (db : DB) :
    InvoiceItem × DB :=
  let item_total := item_in.quantity * item_in.unitPrice
  let invoice_item : InvoiceItem :=
    { id := db.nextId
      invoiceId := invoice.id
      description := item_in.description
      quantity := item_in.quantity
      unitPrice := item_in.unitPrice
      total_amount := item_total
      deletedAt := none }
  let db1 := { db with items := db.items ++ [invoice_item], nextId := db.nextId + 1 }
  (invoice_item, recalculate_total invoice.id db1)

/-- Embeds `InvoiceService.update_item`: overwrite description, quantity and
unit price, recompute the item's own total, then fetch the owning invoice
(by `item.invoice_id`, with no deleted filter, as in the source) and
recalculate its total if it exists. -/
def update_item (item : InvoiceItem) (item_in : InvoiceItemCreate) (db : DB) : DB :=
  let db1 :=
    { db with
      items := db.items.map (fun it =>
        if it.id == item.id then
          { it with
            description := item_in.description
            quantity := item_in.quantity
            unitPrice := item_in.unitPrice
            total_amount := item_in.quantity * item_in.unitPrice }
        else it) }
  if db1.invoices.any (fun inv => inv.id == item.invoiceId) then
    recalculate_total item.invoiceId db1
  else db1

/-- Embeds `InvoiceService.delete_item`: count the *other* non-deleted items
of the same invoice; if none remain, fail (`None` in the source) leaving the
store untouched; otherwise stamp `deleted_at` and recalculate the invoice
total. -/
def delete_item (item : InvoiceItem) (db : DB) : Option DB :=
  let remaining_items :=
    (db.items.filter (fun it =>
      it.invoiceId == item.invoiceId && it.deletedAt.isNone && it.id != item.id)).length
  if remaining_items == 0 then
    none
  else
    let db1 :=
      { db with
        items := db.items.map (fun it =>
          if it.id == item.id then { it with deletedAt := some db.now } else it) }
    if db1.invoices.any (fun inv => inv.id == item.invoiceId) then
      some (recalculate_total item.invoiceId db1)
    else some db1

/-- Embeds `InvoiceService.get_item`: item by id, scoped to the invoice,
excluding soft-deleted. -/
def get_item (invoiceId itemId : Nat) (db : DB) : Option InvoiceItem :=
  db.items.find? (fun it =>
    it.id == itemId && it.invoiceId == invoiceId && it.deletedAt.isNone)

end InvoiceService

/-- Outcome of `PaymentService.create`: either the `ValueError` raised on
overpayment (carrying the remaining payable amount it reports) or the
created payment row. -/
inductive PaymentOutcome where
  | overpayment (remaining : Int)
  | created (payment : Payment)
deriving DecidableEq

/-- The exact `ValueError` message built by `PaymentService.create`. -/
def overpaymentMessage (remaining : Int) : String :=
  "Payment would exceed invoice total. Remaining amount: " ++ toString remaining

namespace PaymentService

/-- Embeds `PaymentService.create` (`app/services/payment_service.py`): sum
the invoice's non-deleted payments (`total_paid`), reject with the
remaining amount when `total_paid + amount` would exceed the invoice total,
otherwise persist the payment and flip the status to PAID when
`total_paid + amount >= invoice.total_amount`. -/
def create (invoice : Invoice) (payment_in : PaymentCreate) (db : DB) :
    PaymentOutcome × DB :=
  let total_paid := db.paidSum invoice.id
  let new_total_paid := total_paid + payment_in.amount
  if invoice.total_amount < new_total_paid then
    (.overpayment (invoice.total_amount - total_paid), db)
  else
    let payment : Payment :=
      { id := db.nextId
        invoiceId := invoice.id
        paymentDate := payment_in.paymentDate
        amount := payment_in.amount
        paymentMethod := payment_in.paymentMethod
        deletedAt := none }
    let db1 := { db with payments := db.payments ++ [payment], nextId := db.nextId + 1 }
    let db2 :=
      if invoice.total_amount ≤ new_total_paid then
        { db1 with
          invoices := db1.invoices.map (fun inv =>
            if inv.id == invoice.id then { inv with status := .paid } else inv) }
      else db1
    (.created payment, db2)

/-- Embeds `PaymentService.get_by_invoice`: the invoice's non-deleted
payments. -/
def get_by_invoice (invoiceId : Nat) (db : DB) : List Payment :=
  db.livePayments invoiceId

end PaymentService

/-- Outcome of the `DELETE /invoices/id/items/id` route
(`app/routes/invoices.py`): the 404 for a missing invoice, the 404 for a
missing item, the 400 for the last remaining item, and success. -/
inductive DeleteItemResult where
  | invoiceNotFound
  | itemNotFound
  | lastItem
  | ok
deriving DecidableEq

/-- Embeds the `delete_invoice_item` route handler: fetch the invoice, fetch
the item, then call `InvoiceService.delete_item`, mapping its `None` result
to the distinguishable last-item failure. -/
def delete_invoice_item (invoiceId itemId : Nat) (db : DB) : DeleteItemResult × DB :=
  match InvoiceService.get_by_id invoiceId db with
  | none => (.invoiceNotFound, db)
  | some _ =>
    match InvoiceService.get_item invoiceId itemId db with
    | none => (.itemNotFound, db)
    | some item =>
      match InvoiceService.delete_item item db with
      | none => (.lastItem, db)
      | some db1 => (.ok, db1)

/-- Uppercased status value, embedding the Python `invoice.status.upper()`
used when shaping statement invoice rows. -/
def InvoiceStatus.upper : InvoiceStatus → String
  | .pending => "PENDING"
  | .paid => "PAID"
  | .overdue => "OVERDUE"
  | .cancelled => "CANCELLED"

/-- The three summary figures of an account statement. -/
structure Summary where
  total_invoiced : Int
  total_paid : Int
  total_pending : Int
deriving DecidableEq

namespace StudentStatementService

/-- Embeds `StudentStatementService._student_invoice_base_filters`:
`student_id` match, not soft-deleted, status not CANCELLED, `issue_date`
within the inclusive range. -/
def baseFilter (studentId : Nat) (startDate endDate : Int) (inv : Invoice) : Bool :=
  inv.studentId == studentId && inv.deletedAt.isNone &&
    inv.status != InvoiceStatus.cancelled &&
    decide (startDate ≤ inv.issueDate) && decide (inv.issueDate ≤ endDate)

/-- Embeds the `total_invoiced` aggregate of
`StudentStatementService._calculate_totals`. -/
def total_invoiced (studentId : Nat) (startDate endDate : Int) (db : DB) : Int :=
  sumBy (db.invoices.filter (baseFilter studentId startDate endDate)) (·.total_amount)

/-- Embeds the `total_paid` aggregate of
`StudentStatementService._calculate_totals`: non-deleted payments joined to
invoices passing the base filters (the join is a nested sum over matching
invoice rows). -/
def total_paid (studentId : Nat) (startDate endDate : Int) (db : DB) : Int :=
  sumBy (db.payments.filter (fun p => p.deletedAt.isNone)) (fun p =>
    sumBy (db.invoices.filter (fun inv =>
        inv.id == p.invoiceId && baseFilter studentId startDate endDate inv))
      (fun _ => p.amount))

/-- One row of the student statement's invoice breakdown. -/
structure InvoiceRow where
  invoice_id : Nat
  issue_date : Int
  due_date : Int
  status : String
  total_amount : Int
  paid_amount : Int
  pending_amount : Int
deriving DecidableEq

/-- Embeds `StudentStatementService._build_invoice_rows`: eligible invoices
as rows; the grouped paid-amount-per-invoice query with its `get(id, 0)`
lookup amounts to each invoice's non-deleted payment sum. -/
def build_invoice_rows (studentId : Nat) (startDate endDate : Int) (db : DB) :
    List InvoiceRow :=
  let invoices := db.invoices.filter (baseFilter studentId startDate endDate)
  if invoices.isEmpty then []
  else
    invoices.map (fun inv =>
      let paid_amount := db.paidSum inv.id
      { invoice_id := inv.id
        issue_date := inv.issueDate
        due_date := inv.dueDate
        status := inv.status.upper
        total_amount := inv.total_amount
        paid_amount := paid_amount
        pending_amount := inv.total_amount - paid_amount })

/-- The assembled student statement. -/
structure StudentStatement where
  student_id : Nat
  student_name : String
  school_id : Nat
  school_name : String
  period_start : Int
  period_end : Int
  summary : Summary
  invoices : Option (List InvoiceRow)
deriving DecidableEq

/-- Embeds `StudentStatementService.get_statement`: existence check on the
student (filtered on `deleted_at IS NULL`), fetch of the student's school
(with no deleted filter, exactly as in `_get_student_and_school`),
aggregate totals, and the optional detail expansion.  A student whose
school row is entirely absent makes the source crash on `school.id`; that
branch is embedded as an absent result. -/
def get_statement (studentId : Nat) (startDate endDate : Int)
    (includeInvoices : Bool) (db : DB) : Option StudentStatement :=
  match db.students.find? (fun s => s.id == studentId && s.deletedAt.isNone) with
  | none => none
  | some student =>
    match db.schools.find? (fun sc => sc.id == student.schoolId) with
    | none => none
    | some school =>
      let ti := total_invoiced studentId startDate endDate db
      let tp := total_paid studentId startDate endDate db
      let pending := ti - tp
      some
        { student_id := student.id
          student_name := student.firstName ++ " " ++ student.lastName
          school_id := school.id
          school_name := school.name
          period_start := startDate
          period_end := endDate
          summary := { total_invoiced := ti, total_paid := tp, total_pending := pending }
          invoices :=
            if includeInvoices then
              some (build_invoice_rows studentId startDate endDate db)
            else none }

end StudentStatementService

namespace SchoolStatementService

/-- The invoice-side filters of the school statement queries: not
soft-deleted, status not CANCELLED, `issue_date` within the inclusive
range (the student-side join conditions are applied separately). -/
def invFilter (startDate endDate : Int) (inv : Invoice) : Bool :=
  inv.deletedAt.isNone && inv.status != InvoiceStatus.cancelled &&
    decide (startDate ≤ inv.issueDate) && decide (inv.issueDate ≤ endDate)

/-- The student-side join conditions of the school statement queries:
`Invoice.student_id == Student.id`, `Student.school_id == school_id`,
student not soft-deleted. -/
def studentJoin (schoolId : Nat) (inv : Invoice) (s : Student) : Bool :=
  s.id == inv.studentId && s.schoolId == schoolId && s.deletedAt.isNone

/-- Embeds the `total_invoiced` aggregate of
`SchoolStatementService._calculate_totals`: invoices joined to the school's
non-deleted students (the join is a nested sum over matching student
rows). -/
def total_invoiced (schoolId : Nat) (startDate endDate : Int) (db : DB) : Int :=
  sumBy (db.invoices.filter (invFilter startDate endDate)) (fun inv =>
    sumBy (db.students.filter (studentJoin schoolId inv)) (fun _ => inv.total_amount))

/-- Embeds the `total_paid` aggregate of
`SchoolStatementService._calculate_totals`: non-deleted payments joined to
eligible invoices joined to the school's non-deleted students. -/
def total_paid (schoolId : Nat) (startDate endDate : Int) (db : DB) : Int :=
  sumBy (db.payments.filter (fun p => p.deletedAt.isNone)) (fun p =>
    sumBy (db.invoices.filter (fun inv =>
        inv.id == p.invoiceId && invFilter startDate endDate inv))
      (fun inv =>
        sumBy (db.students.filter (studentJoin schoolId inv)) (fun _ => p.amount)))

/-- One row of the school statement's invoice breakdown (the student scope
adds `student_id`). -/
structure InvoiceRow where
  invoice_id : Nat
  student_id : Nat
  issue_date : Int
  due_date : Int
  status : String
  total_amount : Int
  paid_amount : Int
  pending_amount : Int
deriving DecidableEq

/-- Embeds `SchoolStatementService._build_invoice_rows`: eligible invoices of
the school's non-deleted students as rows, each with its own non-deleted
payment sum. -/
def build_invoice_rows (schoolId : Nat) (startDate endDate : Int) (db : DB) :
    List InvoiceRow :=
  let invoices :=
    db.invoices.filter (fun inv =>
      invFilter startDate endDate inv && db.students.any (studentJoin schoolId inv))
  if invoices.isEmpty then []
  else
    invoices.map (fun inv =>
      let paid_amount := db.paidSum inv.id
      { invoice_id := inv.id
        student_id := inv.studentId
        issue_date := inv.issueDate
        due_date := inv.dueDate
        status := inv.status.upper
        total_amount := inv.total_amount
        paid_amount := paid_amount
        pending_amount := inv.total_amount - paid_amount })

/-- The assembled school statement. -/
structure SchoolStatement where
  school_id : Nat
  school_name : String
  period_start : Int
  period_end : Int
  student_count : Nat
  summary : Summary
  invoices : Option (List InvoiceRow)
deriving DecidableEq

/-- Embeds `SchoolStatementService.get_statement`: existence check on the
school (filtered on `deleted_at IS NULL`), count of the school's
non-deleted students, aggregate totals, and the optional detail
expansion. -/
def get_statement (schoolId : Nat) (startDate endDate : Int)
    (includeInvoices : Bool) (db : DB) : Option SchoolStatement :=
  match db.schools.find? (fun sc => sc.id == schoolId && sc.deletedAt.isNone) with
  | none => none
  | some school =>
    let student_count :=
      (db.students.filter (fun s => s.schoolId == schoolId && s.deletedAt.isNone)).length
    let ti := total_invoiced schoolId startDate endDate db
    let tp := total_paid schoolId startDate endDate db
    let pending := ti - tp
    some
      { school_id := school.id
        school_name := school.name
        period_start := startDate
        period_end := endDate
        student_count := student_count
        summary := { total_invoiced := ti, total_paid := tp, total_pending := pending }
        invoices :=
          if includeInvoices then
            some (build_invoice_rows schoolId startDate endDate db)
          else none }

end SchoolStatementService

namespace AccountStatementService

/-- The result shape of `AccountStatementService.get_student_statement`
(`app/services/account_statement_service.py`): undated totals plus the raw
eligible invoice rows. -/
structure StudentStatementResult where
  student_id : Nat
  student_name : String
  school_id : Nat
  school_name : String
  total_invoiced : Int
  total_paid : Int
  total_pending : Int
  invoices : List Invoice
deriving DecidableEq

/-- Embeds `AccountStatementService.get_student_statement`: student fetched
with the deleted filter, the student's school fetched with no deleted
filter (as in the source), invoices and payment sums excluding
soft-deleted and cancelled rows, with no date filtering. -/
def get_student_statement (studentId : Nat) (db : DB) : Option StudentStatementResult :=
  match db.students.find? (fun s => s.id == studentId && s.deletedAt.isNone) with
  | none => none
  | some student =>
    match db.schools.find? (fun sc => sc.id == student.schoolId) with
    | none => none
    | some school =>
      let eligible := fun (inv : Invoice) =>
        inv.studentId == studentId && inv.deletedAt.isNone &&
          inv.status != InvoiceStatus.cancelled
      let invoices := db.invoices.filter eligible
      let ti := sumBy invoices (·.total_amount)
      let tp :=
        sumBy (db.payments.filter (fun p => p.deletedAt.isNone)) (fun p =>
          sumBy (db.invoices.filter (fun inv => inv.id == p.invoiceId && eligible inv))
            (fun _ => p.amount))
      some
        { student_id := student.id
          student_name := student.firstName ++ " " ++ student.lastName
          school_id := school.id
          school_name := school.name
          total_invoiced := ti
          total_paid := tp
          total_pending := ti - tp
          invoices := invoices }

end AccountStatementService

/-- Spec §8 payment invariant: for every invoice, the sum of its non-deleted
payments never exceeds its `total_amount`. -/
def paymentInvariant (db : DB) : Prop :=
  ∀ inv ∈ db.invoices, db.paidSum inv.id ≤ inv.total_amount

/-- Spec §3 total invariant: every invoice's `total_amount` equals the sum of
`total_amount` over its non-deleted items. -/
def totalsInvariant (db : DB) : Prop :=
  ∀ inv ∈ db.invoices, inv.total_amount = db.itemSum inv.id

/-- Spec §3 item invariant: every item's `total_amount` equals
`quantity * unit_price`. -/
def itemTotalsInvariant (db : DB) : Prop :=
  ∀ it ∈ db.items, it.total_amount = it.quantity * it.unitPrice

/-- Store well-formedness: every persisted row id, and every foreign key,
is below the id sequence, so freshly drawn ids are unused. -/
def WF (db : DB) : Prop :=
  (∀ inv ∈ db.invoices, inv.id < db.nextId) ∧
  (∀ it ∈ db.items, it.invoiceId < db.nextId) ∧
  (∀ p ∈ db.payments, p.invoiceId < db.nextId)

/-- Number of non-deleted items on an invoice. -/
def DB.liveItemCount (db : DB) (invoiceId : Nat) : Nat :=
  (db.liveItems invoiceId).length

instance (db : DB) : Decidable (paymentInvariant db) := by
  unfold paymentInvariant; infer_instance

instance (db : DB) : Decidable (totalsInvariant db) := by
  unfold totalsInvariant; infer_instance

instance (db : DB) : Decidable (itemTotalsInvariant db) := by
  unfold itemTotalsInvariant; infer_instance

instance (db : DB) : Decidable (WF db) := by
  unfold WF; infer_instance

instance (it : InvoiceItemCreate) : Decidable it.valid := by
  unfold InvoiceItemCreate.valid; infer_instance

instance (inv : InvoiceCreate) : Decidable inv.valid := by
  unfold InvoiceCreate.valid; infer_instance

instance (p : PaymentCreate) : Decidable p.valid := by
  unfold PaymentCreate.valid; infer_instance

section ListLemmas

variable {α : Type _}

theorem sumBy_nil (f : α → Int) : sumBy ([] : List α) f = 0 := rfl

theorem sumBy_cons (f : α → Int) (a : α) (l : List α) :
    sumBy (a :: l) f = f a + sumBy l f := by
  simp [sumBy]

theorem sumBy_append (f : α → Int) (l₁ l₂ : List α) :
    sumBy (l₁ ++ l₂) f = sumBy l₁ f + sumBy l₂ f := by
  simp [sumBy]

theorem sumBy_congr {f g : α → Int} {l : List α} (h : ∀ a ∈ l, f a = g a) :
    sumBy l f = sumBy l g := by
  induction l with
  | nil => rfl
  | cons a l ih =>
    rw [sumBy_cons, sumBy_cons, h a (List.mem_cons_self a l),
      ih (fun b hb => h b (List.mem_cons_of_mem a hb))]

theorem sumBy_map (g : α → α) (f : α → Int) (l : List α) :
    sumBy (l.map g) f = sumBy l (fun a => f (g a)) := by
  simp [sumBy, List.map_map, Function.comp_def]

theorem sumBy_nonneg {f : α → Int} {l : List α} (h : ∀ a ∈ l, 0 ≤ f a) :
    0 ≤ sumBy l f := by
  induction l with
  | nil => exact le_refl 0
  | cons a l ih =>
    rw [sumBy_cons]
    exact add_nonneg (h a (List.mem_cons_self a l))
      (ih (fun b hb => h b (List.mem_cons_of_mem a hb)))

theorem sumBy_const_zero (l : List α) : sumBy l (fun _ => (0 : Int)) = 0 := by
  induction l with
  | nil => rfl
  | cons a l ih => rw [sumBy_cons, ih]; simp

theorem filter_eq_nil_of_forall {p : α → Bool} {l : List α}
    (h : ∀ a ∈ l, p a = false) : l.filter p = [] := by
  induction l with
  | nil => rfl
  | cons a l ih =>
    rw [List.filter_cons, h a (List.mem_cons_self a l)]
    exact ih (fun b hb => h b (List.mem_cons_of_mem a hb))

theorem filter_map_of_pres (g : α → α) {p : α → Bool} {l : List α}
    (h : ∀ a ∈ l, p (g a) = p a) : (l.map g).filter p = (l.filter p).map g := by
  induction l with
  | nil => rfl
  | cons a l ih =>
    have ih' := ih (fun b hb => h b (List.mem_cons_of_mem a hb))
    have ha := h a (List.mem_cons_self a l)
    cases hpa : p a with
    | true => simp [List.filter_cons, ha, hpa, ih']
    | false => simp [List.filter_cons, ha, hpa, ih']

theorem map_id_of_filter (g : α → α) {p : α → Bool} {l : List α}
    (h : ∀ a ∈ l, p a = true → g a = a) : (l.filter p).map g = l.filter p := by
  induction l with
  | nil => rfl
  | cons a l ih =>
    have ih' := ih (fun b hb => h b (List.mem_cons_of_mem a hb))
    cases hpa : p a with
    | true =>
      simp [List.filter_cons, hpa, ih', h a (List.mem_cons_self a l) hpa]
    | false => simp [List.filter_cons, hpa, ih']

theorem filter_map_eq_filter (g : α → α) {p : α → Bool} {l : List α}
    (h : ∀ a ∈ l, p (g a) = p a ∧ (p a = true → g a = a)) :
    (l.map g).filter p = l.filter p := by
  rw [filter_map_of_pres g (fun a ha => (h a ha).1),
    map_id_of_filter g (fun a ha => (h a ha).2)]

theorem sumBy_filter_map (g : α → α) {p : α → Bool} {v : α → Int} {l : List α}
    (h1 : ∀ a ∈ l, p (g a) = p a)
    (h2 : ∀ a ∈ l, p a = true → v (g a) = v a) :
    sumBy ((l.map g).filter p) v = sumBy (l.filter p) v := by
  rw [filter_map_of_pres g h1, sumBy_map]
  exact sumBy_congr (fun a ha => by
    have hmem := List.mem_filter.mp ha
    exact h2 a hmem.1 hmem.2)

theorem filter_filter_of_imp {p q : α → Bool} (l : List α)
    (h : ∀ a, p a = true → q a = true) : (l.filter q).filter p = l.filter p := by
  induction l with
  | nil => rfl
  | cons a l ih =>
    cases hqa : q a with
    | true => simp [List.filter_cons, hqa, ih]
    | false =>
      have hpa : p a = false := by
        cases hp : p a with
        | true => exact absurd (h a hp) (by simp [hqa])
        | false => rfl
      simp [List.filter_cons, hqa, hpa, ih]

theorem find?_filter_of_imp {p q : α → Bool} (l : List α)
    (h : ∀ a, p a = true → q a = true) : (l.filter q).find? p = l.find? p := by
  induction l with
  | nil => rfl
  | cons a l ih =>
    cases hqa : q a with
    | true =>
      cases hpa : p a with
      | true => simp [List.filter_cons, List.find?_cons, hqa, hpa]
      | false => simp [List.filter_cons, List.find?_cons, hqa, hpa, ih]
    | false =>
      have hpa : p a = false := by
        cases hp : p a with
        | true => exact absurd (h a hp) (by simp [hqa])
        | false => rfl
      simp [List.filter_cons, List.find?_cons, hqa, hpa, ih]

theorem any_filter_of_imp {p q : α → Bool} (l : List α)
    (h : ∀ a, p a = true → q a = true) : (l.filter q).any p = l.any p := by
  induction l with
  | nil => rfl
  | cons a l ih =>
    cases hqa : q a with
    | true => simp [List.filter_cons, hqa, ih]
    | false =>
      have hpa : p a = false := by
        cases hp : p a with
        | true => exact absurd (h a hp) (by simp [hqa])
        | false => rfl
      simp [List.filter_cons, hqa, hpa, ih]

theorem length_filter_le_filter_map (g : α → α) {p q : α → Bool} {l : List α}
    (h : ∀ a ∈ l, q a = true → g a = a ∧ p a = true) :
    (l.filter q).length ≤ ((l.map g).filter p).length := by
  induction l with
  | nil => exact Nat.le_refl 0
  | cons a l ih =>
    have ih' := ih (fun b hb => h b (List.mem_cons_of_mem a hb))
    cases hqa : q a with
    | true =>
      obtain ⟨hga, hpa⟩ := h a (List.mem_cons_self a l) hqa
      simp only [List.filter_cons, List.map_cons, hqa, hga, hpa]
      simpa using ih'
    | false =>
      simp only [List.filter_cons, List.map_cons, hqa]
      cases hpga : p (g a) with
      | true =>
        simp only [hpga, if_true, Bool.false_eq_true, if_false, List.length_cons]
        exact Nat.le_trans ih' (Nat.le_succ _)
      | false => simpa [hpga] using ih'

end ListLemmas

section StoreLemmas

theorem liveItemsOf_append (l₁ l₂ : List InvoiceItem) (j : Nat) :
    liveItemsOf (l₁ ++ l₂) j = liveItemsOf l₁ j ++ liveItemsOf l₂ j := by
  unfold liveItemsOf
  exact List.filter_append _ _

theorem itemsSumOf_append (l₁ l₂ : List InvoiceItem) (j : Nat) :
    itemsSumOf (l₁ ++ l₂) j = itemsSumOf l₁ j + itemsSumOf l₂ j := by
  unfold itemsSumOf
  rw [liveItemsOf_append, sumBy_append]

theorem livePaymentsOf_append (l₁ l₂ : List Payment) (j : Nat) :
    livePaymentsOf (l₁ ++ l₂) j = livePaymentsOf l₁ j ++ livePaymentsOf l₂ j := by
  unfold livePaymentsOf
  exact List.filter_append _ _

theorem paymentsSumOf_append (l₁ l₂ : List Payment) (j : Nat) :
    paymentsSumOf (l₁ ++ l₂) j = paymentsSumOf l₁ j + paymentsSumOf l₂ j := by
  unfold paymentsSumOf
  rw [livePaymentsOf_append, sumBy_append]

theorem itemsSumOf_singleton_match {it : InvoiceItem} {j : Nat}
    (h1 : it.invoiceId = j) (h2 : it.deletedAt = none) :
    itemsSumOf [it] j = it.total_amount := by
  simp [itemsSumOf, liveItemsOf, sumBy, h1, h2]

theorem itemsSumOf_singleton_ne {it : InvoiceItem} {j : Nat}
    (h : it.invoiceId ≠ j) : itemsSumOf [it] j = 0 := by
  simp [itemsSumOf, liveItemsOf, sumBy, h]

theorem paymentsSumOf_singleton_match {p : Payment} {j : Nat}
    (h1 : p.invoiceId = j) (h2 : p.deletedAt = none) :
    paymentsSumOf [p] j = p.amount := by
  simp [paymentsSumOf, livePaymentsOf, sumBy, h1, h2]

theorem paymentsSumOf_singleton_ne {p : Payment} {j : Nat}
    (h : p.invoiceId ≠ j) : paymentsSumOf [p] j = 0 := by
  simp [paymentsSumOf, livePaymentsOf, sumBy, h]

theorem liveItemsOf_update_ne (items : List InvoiceItem) (item : InvoiceItem)
    (d : String) (q p : Int) {k : Nat}
    (huniq : ∀ it ∈ items, it.id = item.id → it = item)
    (hk : k ≠ item.invoiceId) :
    liveItemsOf (items.map (fun it =>
      if it.id == item.id then
        { it with
          description := d
          quantity := q
          unitPrice := p
          total_amount := q * p }
      else it)) k = liveItemsOf items k := by
  unfold liveItemsOf
  apply filter_map_eq_filter
  intro it hmem
  by_cases hid : it.id = item.id
  · have heq : it = item := huniq it hmem hid
    constructor
    · simp [hid]
    · intro hp
      exfalso
      rw [heq] at hp
      simp only [Bool.and_eq_true, beq_iff_eq] at hp
      exact hk hp.1.symm
  · constructor
    · simp [hid]
    · intro _
      simp [hid]

theorem liveItemsOf_mark_ne (items : List InvoiceItem) (item : InvoiceItem)
    (t : Nat) {k : Nat}
    (huniq : ∀ it ∈ items, it.id = item.id → it = item)
    (hk : k ≠ item.invoiceId) :
    liveItemsOf (items.map (fun it =>
      if it.id == item.id then { it with deletedAt := some t } else it)) k
      = liveItemsOf items k := by
  unfold liveItemsOf
  apply filter_map_eq_filter
  intro it hmem
  by_cases hid : it.id = item.id
  · have heq : it = item := huniq it hmem hid
    have hne : (it.invoiceId == k) = false := by
      simp only [beq_eq_false_iff_ne, ne_eq]
      exact fun hc => hk ((heq ▸ hc).symm)
    constructor
    · simp [hid, hne]
    · intro hp
      exfalso
      simp only [Bool.and_eq_true] at hp
      rw [hne] at hp
      exact Bool.false_ne_true hp.1
  · constructor
    · simp [hid]
    · intro _
      simp [hid]

theorem recalculate_total_items (invId : Nat) (db : DB) :
    (InvoiceService.recalculate_total invId db).items = db.items := rfl

theorem recalculate_total_payments (invId : Nat) (db : DB) :
    (InvoiceService.recalculate_total invId db).payments = db.payments := rfl

theorem recalculate_total_invoices (invId : Nat) (db : DB) :
    (InvoiceService.recalculate_total invId db).invoices =
      db.invoices.map (fun inv =>
        if inv.id == invId then { inv with total_amount := db.itemSum invId }
        else inv) := rfl

theorem itemSum_recalculate (invId k : Nat) (db : DB) :
    (InvoiceService.recalculate_total invId db).itemSum k = db.itemSum k := rfl

theorem paidSum_recalculate (invId k : Nat) (db : DB) :
    (InvoiceService.recalculate_total invId db).paidSum k = db.paidSum k := rfl

/-- After `recalculate_total`, every invoice whose stale rows already satisfied
the totals invariant (apart from the recalculated id) satisfies it again. -/
theorem totalsInvariant_recalc_of (db : DB) (invId : Nat)
    (h : ∀ inv ∈ db.invoices, inv.id ≠ invId → inv.total_amount = db.itemSum inv.id) :
    totalsInvariant (InvoiceService.recalculate_total invId db) := by
  intro inv' hmem
  rw [recalculate_total_invoices] at hmem
  obtain ⟨inv, hinv, rfl⟩ := List.mem_map.mp hmem
  by_cases hid : inv.id = invId
  · rw [if_pos (by simp [hid])]
    show db.itemSum invId = (InvoiceService.recalculate_total invId db).itemSum inv.id
    rw [itemSum_recalculate, hid]
  · rw [if_neg (by simp [hid])]
    show inv.total_amount = (InvoiceService.recalculate_total invId db).itemSum inv.id
    rw [itemSum_recalculate]
    exact h inv hinv hid

end StoreLemmas

section OpLemmas

theorem paymentsSumOf_fresh {payments : List Payment} {j : Nat}
    (h : ∀ p ∈ payments, p.invoiceId ≠ j) : paymentsSumOf payments j = 0 := by
  unfold paymentsSumOf livePaymentsOf
  rw [filter_eq_nil_of_forall (fun p hp => by simp [h p hp])]
  rfl

theorem itemsSumOf_fresh {items : List InvoiceItem} {j : Nat}
    (h : ∀ it ∈ items, it.invoiceId ≠ j) : itemsSumOf items j = 0 := by
  unfold itemsSumOf liveItemsOf
  rw [filter_eq_nil_of_forall (fun it hit => by simp [h it hit])]
  rfl

theorem mkItems_mem {j s : Nat} {l : List InvoiceItemCreate} :
    ∀ x ∈ InvoiceService.mkItems j s l,
      x.invoiceId = j ∧ x.deletedAt = none ∧
        x.total_amount = x.quantity * x.unitPrice := by
  induction l generalizing s with
  | nil => intro x hx; cases hx
  | cons it rest ih =>
    intro x hx
    unfold InvoiceService.mkItems at hx
    rcases List.mem_cons.mp hx with h | h
    · subst h; exact ⟨rfl, rfl, rfl⟩
    · exact ih x h

theorem mkItems_sum (j s : Nat) (l : List InvoiceItemCreate) :
    itemsSumOf (InvoiceService.mkItems j s l) j =
      sumBy l (fun it => it.quantity * it.unitPrice) := by
  induction l generalizing s with
  | nil => rfl
  | cons it rest ih =>
    have hsplit : InvoiceService.mkItems j s (it :: rest) =
        InvoiceService.mkItems j s [it] ++ InvoiceService.mkItems j (s + 1) rest := rfl
    rw [hsplit, itemsSumOf_append, ih, sumBy_cons]
    congr 1
    exact itemsSumOf_singleton_match rfl rfl

theorem mkItems_sum_ne (j s : Nat) (l : List InvoiceItemCreate) {k : Nat}
    (h : k ≠ j) : itemsSumOf (InvoiceService.mkItems j s l) k = 0 :=
  itemsSumOf_fresh (fun x hx => by rw [(mkItems_mem x hx).1]; exact fun hc => h hc.symm)

theorem create_snd_invoices (inp : InvoiceCreate) (db : DB) :
    (InvoiceService.create inp db).2.invoices =
      db.invoices ++ [(InvoiceService.create inp db).1] := rfl

theorem create_snd_items (inp : InvoiceCreate) (db : DB) :
    (InvoiceService.create inp db).2.items =
      db.items ++ InvoiceService.mkItems db.nextId (db.nextId + 1) inp.items := rfl

theorem create_snd_payments (inp : InvoiceCreate) (db : DB) :
    (InvoiceService.create inp db).2.payments = db.payments := rfl

theorem create_fst (inp : InvoiceCreate) (db : DB) :
    (InvoiceService.create inp db).1 =
      { id := db.nextId
        studentId := inp.studentId
        issueDate := inp.issueDate
        dueDate := inp.dueDate
        total_amount := sumBy inp.items (fun it => it.quantity * it.unitPrice)
        status := inp.status
        deletedAt := none } := rfl

theorem cancel_invoices (invoice : Invoice) (db : DB) :
    (InvoiceService.cancel invoice db).invoices =
      db.invoices.map (fun inv =>
        if inv.id == invoice.id then { inv with status := .cancelled } else inv) := rfl

theorem cancel_items (invoice : Invoice) (db : DB) :
    (InvoiceService.cancel invoice db).items = db.items := rfl

theorem cancel_payments (invoice : Invoice) (db : DB) :
    (InvoiceService.cancel invoice db).payments = db.payments := rfl

/-- The fresh item row persisted by `InvoiceService.add_item`. -/
def addItemRow (invoice : Invoice) (item_in : InvoiceItemCreate) (db : DB) :
    InvoiceItem :=
  { id := db.nextId
    invoiceId := invoice.id
    description := item_in.description
    quantity := item_in.quantity
    unitPrice := item_in.unitPrice
    total_amount := item_in.quantity * item_in.unitPrice
    deletedAt := none }

theorem add_item_snd (invoice : Invoice) (item_in : InvoiceItemCreate) (db : DB) :
    (InvoiceService.add_item invoice item_in db).2 =
      InvoiceService.recalculate_total invoice.id
        { db with
          items := db.items ++ [addItemRow invoice item_in db]
          nextId := db.nextId + 1 } := rfl

/-- The fresh payment row persisted by `PaymentService.create`. -/
def paymentRow (invoice : Invoice) (payment_in : PaymentCreate) (db : DB) : Payment :=
  { id := db.nextId
    invoiceId := invoice.id
    paymentDate := payment_in.paymentDate
    amount := payment_in.amount
    paymentMethod := payment_in.paymentMethod
    deletedAt := none }

theorem create_payment_overpay (db : DB) (invoice : Invoice) (p : PaymentCreate)
    (hover : invoice.total_amount < db.paidSum invoice.id + p.amount) :
    PaymentService.create invoice p db =
      (.overpayment (invoice.total_amount - db.paidSum invoice.id), db) := by
  unfold PaymentService.create
  simp [hover]

theorem create_payment_ok_payments (db : DB) (invoice : Invoice) (p : PaymentCreate)
    (hover : ¬ invoice.total_amount < db.paidSum invoice.id + p.amount) :
    (PaymentService.create invoice p db).2.payments =
      db.payments ++ [paymentRow invoice p db] := by
  unfold PaymentService.create
  rw [if_neg hover]
  by_cases hc : invoice.total_amount ≤ db.paidSum invoice.id + p.amount <;>
    simp [hc, paymentRow]

theorem create_payment_ok_items (db : DB) (invoice : Invoice) (p : PaymentCreate)
    (hover : ¬ invoice.total_amount < db.paidSum invoice.id + p.amount) :
    (PaymentService.create invoice p db).2.items = db.items := by
  unfold PaymentService.create
  rw [if_neg hover]
  by_cases hc : invoice.total_amount ≤ db.paidSum invoice.id + p.amount <;>
    simp [hc]

theorem create_payment_ok_invoices (db : DB) (invoice : Invoice) (p : PaymentCreate)
    (hover : ¬ invoice.total_amount < db.paidSum invoice.id + p.amount) :
    (PaymentService.create invoice p db).2.invoices =
      if invoice.total_amount ≤ db.paidSum invoice.id + p.amount then
        db.invoices.map (fun inv =>
          if inv.id == invoice.id then { inv with status := .paid } else inv)
      else db.invoices := by
  unfold PaymentService.create
  rw [if_neg hover]
  by_cases hc : invoice.total_amount ≤ db.paidSum invoice.id + p.amount <;>
    simp [hc]

end OpLemmas

theorem DB.ext' {a b : DB} (hs : a.schools = b.schools)
    (hst : a.students = b.students) (hi : a.invoices = b.invoices)
    (hit : a.items = b.items) (hp : a.payments = b.payments)
    (hn : a.nextId = b.nextId) (hw : a.now = b.now) : a = b := by
  cases a
  cases b
  simp_all

/-- C8: calling `recalculate_total` twice in a row with no intervening item
mutation yields the same store as calling it once — in particular the second
call leaves `total_amount` unchanged. -/
theorem C8_recalculate_total_idempotent (invoiceId : Nat) (db : DB) :
    InvoiceService.recalculate_total invoiceId
        (InvoiceService.recalculate_total invoiceId db) =
      InvoiceService.recalculate_total invoiceId db := by
  refine DB.ext' rfl rfl ?_ rfl rfl rfl rfl
  rw [recalculate_total_invoices invoiceId (InvoiceService.recalculate_total invoiceId db),
    itemSum_recalculate, recalculate_total_invoices invoiceId db, List.map_map]
  apply List.map_congr_left
  intro inv _
  by_cases h : inv.id = invoiceId
  · simp [Function.comp_def, h]
  · simp [Function.comp_def, h]

/-- C3: when the requested positive amount would push the paid sum beyond the
invoice total, `PaymentService.create` fails with an overpayment error
reporting exactly `invoice.total_amount - paidSoFar` as the remaining
payable amount, creates no payment row, and returns the store unchanged
(so the invoice, its status and its `total_amount` are untouched). -/
theorem C3_overpayment_rejected (db : DB) (invoice : Invoice) (p : PaymentCreate)
    (hpos : 0 < p.amount)
    (hover : invoice.total_amount < db.paidSum invoice.id + p.amount) :
    PaymentService.create invoice p db =
      (.overpayment (invoice.total_amount - db.paidSum invoice.id), db) :=
  create_payment_overpay db invoice p hover

def c3Db : DB := ⟨[], [], [⟨1, 1, 0, 10, 100, .pending, none⟩], [], [], 2, 0⟩

def c3Inv : Invoice := ⟨1, 1, 0, 10, 100, .pending, none⟩

theorem C3_witness :
    PaymentService.create c3Inv ⟨3, 150, .cash⟩ c3Db =
      (.overpayment (c3Inv.total_amount - c3Db.paidSum c3Inv.id), c3Db) :=
  C3_overpayment_rejected c3Db c3Inv ⟨3, 150, .cash⟩ (by decide) (by decide)

/-- C4: when the overpayment check passes, `PaymentService.create` sets the
invoice status to PAID exactly when `paidSoFar + amount` reaches the
invoice total, and leaves every status unchanged otherwise; the transition
is an unconditional overwrite of the previous status (including
CANCELLED). -/
theorem C4_status_transition (db : DB) (invoice : Invoice) (p : PaymentCreate)
    (hok : ¬ invoice.total_amount < db.paidSum invoice.id + p.amount) :
    (PaymentService.create invoice p db).2.invoices =
      if invoice.total_amount ≤ db.paidSum invoice.id + p.amount then
        db.invoices.map (fun inv =>
          if inv.id == invoice.id then { inv with status := .paid } else inv)
      else db.invoices :=
  create_payment_ok_invoices db invoice p hok

def c4Db : DB := ⟨[], [], [⟨1, 1, 0, 10, 100, .cancelled, none⟩], [], [], 2, 0⟩

def c4Inv : Invoice := ⟨1, 1, 0, 10, 100, .cancelled, none⟩

theorem C4_witness :
    (PaymentService.create c4Inv ⟨3, 100, .card⟩ c4Db).2.invoices =
      if c4Inv.total_amount ≤ c4Db.paidSum c4Inv.id + (100 : Int) then
        c4Db.invoices.map (fun inv =>
          if inv.id == c4Inv.id then { inv with status := .paid } else inv)
      else c4Db.invoices :=
  C4_status_transition c4Db c4Inv ⟨3, 100, .card⟩ (by decide)

def c1Db0 : DB := ⟨[], [], [], [], [], 1, 7⟩

def c1Create : Invoice × DB :=
  InvoiceService.create ⟨1, 0, 10, .pending, [⟨"Tuition", 1, 100⟩]⟩ c1Db0

def c1Db2 : DB := (PaymentService.create c1Create.1 ⟨5, 100, .cash⟩ c1Create.2).2

def c1Item : InvoiceItem := ⟨2, 1, "Tuition", 1, 100, 100, none⟩

def c1Db3 : DB := InvoiceService.update_item c1Item ⟨"Tuition", 1, 50⟩ c1Db2

/-- C1 counterexample: a store reached from the empty store by `createInvoice`
(one item at 100), then `createPayment` of 100 (fully paid), then
`updateItem` repricing that item to 50.  The intermediate store satisfies the
payment-sum invariant (and the totals invariant and well-formedness), the
passed item is its live item row, yet after the item update the non-deleted
payment sum (100) strictly exceeds the recalculated `total_amount` (50): the
invariant is not preserved by item mutations on an invoice that already has
payments, contrary to the claim. -/
theorem C1_counterexample :
    c1Item ∈ c1Db2.items ∧ paymentInvariant c1Db2 ∧ totalsInvariant c1Db2 ∧
      WF c1Db2 ∧ ¬ paymentInvariant c1Db3 := by decide

/-- C1 (amended): on any well-formed store satisfying the payment-sum and
totals invariants, the payment-sum invariant (non-deleted payment sum of
every invoice at most its `total_amount`) is preserved by `createPayment`
(applied to the invoice's live row), by `createInvoice` with validated
items, by `addItem` with a validated item, by `recalculateTotal`, and by
`cancelInvoice`; it is not preserved by `updateItem` or `deleteItem` (see
the counterexample), which recalculate the total without consulting
payments. -/
theorem C1_payment_invariant_preserved (db : DB) (hWF : WF db)
    (hpay : paymentInvariant db) (htot : totalsInvariant db) :
    (∀ (invoice : Invoice) (p : PaymentCreate),
        (∀ i ∈ db.invoices, i.id = invoice.id → i = invoice) →
        paymentInvariant (PaymentService.create invoice p db).2) ∧
    (∀ inp : InvoiceCreate, (∀ it ∈ inp.items, it.valid) →
        paymentInvariant (InvoiceService.create inp db).2) ∧
    (∀ (invoice : Invoice) (item_in : InvoiceItemCreate), item_in.valid →
        paymentInvariant (InvoiceService.add_item invoice item_in db).2) ∧
    (∀ invId, paymentInvariant (InvoiceService.recalculate_total invId db)) ∧
    (∀ invoice, paymentInvariant (InvoiceService.cancel invoice db)) := by
  have hcpay : ∀ (invoice : Invoice) (p : PaymentCreate),
      (∀ i ∈ db.invoices, i.id = invoice.id → i = invoice) →
      paymentInvariant (PaymentService.create invoice p db).2 := by
    intro invoice p huniq
    by_cases hover : invoice.total_amount < db.paidSum invoice.id + p.amount
    · rw [create_payment_overpay db invoice p hover]
      exact hpay
    · have hle : db.paidSum invoice.id + p.amount ≤ invoice.total_amount :=
        not_lt.mp hover
      have hps : ∀ k, (PaymentService.create invoice p db).2.paidSum k =
          db.paidSum k + paymentsSumOf [paymentRow invoice p db] k := by
        intro k
        show paymentsSumOf (PaymentService.create invoice p db).2.payments k = _
        rw [create_payment_ok_payments db invoice p hover, paymentsSumOf_append]
        rfl
      have hone : paymentsSumOf [paymentRow invoice p db] invoice.id = p.amount :=
        paymentsSumOf_singleton_match rfl rfl
      intro inv' hmem
      rw [create_payment_ok_invoices db invoice p hover] at hmem
      by_cases hc : invoice.total_amount ≤ db.paidSum invoice.id + p.amount
      · rw [if_pos hc] at hmem
        obtain ⟨i, hi, rfl⟩ := List.mem_map.mp hmem
        by_cases hid : i.id = invoice.id
        · have hieq : i = invoice := huniq i hi hid
          rw [if_pos (by simp [hid])]
          show (PaymentService.create invoice p db).2.paidSum i.id ≤ i.total_amount
          rw [hps, hid, hone, hieq]
          exact hle
        · rw [if_neg (by simp [hid])]
          show (PaymentService.create invoice p db).2.paidSum i.id ≤ i.total_amount
          have hzero : paymentsSumOf [paymentRow invoice p db] i.id = 0 :=
            paymentsSumOf_singleton_ne (fun hc' => hid hc'.symm)
          rw [hps, hzero, add_zero]
          exact hpay i hi
      · rw [if_neg hc] at hmem
        by_cases hid : inv'.id = invoice.id
        · have hieq : inv' = invoice := huniq inv' hmem hid
          rw [hps, hid, hone, hieq]
          exact hle
        · have hzero : paymentsSumOf [paymentRow invoice p db] inv'.id = 0 :=
            paymentsSumOf_singleton_ne (fun hc' => hid hc'.symm)
          rw [hps, hzero, add_zero]
          exact hpay inv' hmem
  have hcreate : ∀ inp : InvoiceCreate, (∀ it ∈ inp.items, it.valid) →
      paymentInvariant (InvoiceService.create inp db).2 := by
    intro inp hvalid inv' hmem
    rw [create_snd_invoices] at hmem
    rcases List.mem_append.mp hmem with h | h
    · show db.paidSum inv'.id ≤ inv'.total_amount
      exact hpay inv' h
    · rw [List.mem_singleton] at h
      subst h
      show db.paidSum db.nextId ≤ sumBy inp.items (fun it => it.quantity * it.unitPrice)
      rw [show db.paidSum db.nextId = 0 from
        paymentsSumOf_fresh (fun q hq => Nat.ne_of_lt (hWF.2.2 q hq))]
      exact sumBy_nonneg (fun it hit =>
        mul_nonneg (le_of_lt (hvalid it hit).1) (hvalid it hit).2)
  have haddi : ∀ (invoice : Invoice) (item_in : InvoiceItemCreate), item_in.valid →
      paymentInvariant (InvoiceService.add_item invoice item_in db).2 := by
    intro invoice item_in hvalid
    rw [add_item_snd]
    intro inv' hmem
    rw [recalculate_total_invoices] at hmem
    obtain ⟨inv, hinv, rfl⟩ := List.mem_map.mp hmem
    have hinv' : inv ∈ db.invoices := hinv
    by_cases hid : inv.id = invoice.id
    · rw [if_pos (by simp [hid])]
      show db.paidSum inv.id ≤ itemsSumOf (db.items ++ [addItemRow invoice item_in db]) invoice.id
      have hone : itemsSumOf [addItemRow invoice item_in db] invoice.id =
          item_in.quantity * item_in.unitPrice :=
        itemsSumOf_singleton_match rfl rfl
      rw [itemsSumOf_append, hone]
      have hrow : (0 : Int) ≤ item_in.quantity * item_in.unitPrice :=
        mul_nonneg (le_of_lt hvalid.1) hvalid.2
      have hbase : db.paidSum inv.id ≤ itemsSumOf db.items invoice.id := by
        rw [← hid]
        show db.paidSum inv.id ≤ db.itemSum inv.id
        exact htot inv hinv' ▸ hpay inv hinv'
      linarith
    · rw [if_neg (by simp [hid])]
      show db.paidSum inv.id ≤ inv.total_amount
      exact hpay inv hinv'
  have hrecalc : ∀ invId, paymentInvariant (InvoiceService.recalculate_total invId db) := by
    intro invId inv' hmem
    rw [recalculate_total_invoices] at hmem
    obtain ⟨inv, hinv, rfl⟩ := List.mem_map.mp hmem
    by_cases hid : inv.id = invId
    · rw [if_pos (by simp [hid])]
      show db.paidSum inv.id ≤ db.itemSum invId
      rw [← hid]
      exact htot inv hinv ▸ hpay inv hinv
    · rw [if_neg (by simp [hid])]
      show db.paidSum inv.id ≤ inv.total_amount
      exact hpay inv hinv
  have hcancel : ∀ invoice, paymentInvariant (InvoiceService.cancel invoice db) := by
    intro invoice inv' hmem
    rw [cancel_invoices] at hmem
    obtain ⟨inv, hinv, rfl⟩ := List.mem_map.mp hmem
    by_cases hid : inv.id = invoice.id
    · rw [if_pos (by simp [hid])]
      show db.paidSum inv.id ≤ inv.total_amount
      exact hpay inv hinv
    · rw [if_neg (by simp [hid])]
      show db.paidSum inv.id ≤ inv.total_amount
      exact hpay inv hinv
  exact ⟨hcpay, hcreate, haddi, hrecalc, hcancel⟩

theorem C1_witness :
    paymentInvariant (InvoiceService.recalculate_total 1 c1Db2) :=
  (C1_payment_invariant_preserved c1Db2 (by decide) (by decide) (by decide)).2.2.2.1 1

/-- The item-table rewrite performed by `InvoiceService.update_item` before
it recalculates. -/
def updDB (item : InvoiceItem) (item_in : InvoiceItemCreate) (db : DB) : DB :=
  { db with
    items := db.items.map (fun it =>
      if it.id == item.id then
        { it with
          description := item_in.description
          quantity := item_in.quantity
          unitPrice := item_in.unitPrice
          total_amount := item_in.quantity * item_in.unitPrice }
      else it) }

/-- The item-table rewrite performed by `InvoiceService.delete_item` before
it recalculates. -/
def markDB (item : InvoiceItem) (t : Nat) (db : DB) : DB :=
  { db with
    items := db.items.map (fun it =>
      if it.id == item.id then { it with deletedAt := some t } else it) }

theorem update_item_eq (item : InvoiceItem) (item_in : InvoiceItemCreate) (db : DB) :
    InvoiceService.update_item item item_in db =
      if db.invoices.any (fun inv => inv.id == item.invoiceId) then
        InvoiceService.recalculate_total item.invoiceId (updDB item item_in db)
      else updDB item item_in db := rfl

theorem delete_item_eq (item : InvoiceItem) (db : DB) :
    InvoiceService.delete_item item db =
      if (db.items.filter (fun it =>
          it.invoiceId == item.invoiceId && it.deletedAt.isNone &&
            it.id != item.id)).length == 0 then
        none
      else if db.invoices.any (fun inv => inv.id == item.invoiceId) then
        some (InvoiceService.recalculate_total item.invoiceId (markDB item db.now db))
      else some (markDB item db.now db) := rfl

theorem updDB_itemSum_ne (item : InvoiceItem) (item_in : InvoiceItemCreate)
    (db : DB) {k : Nat}
    (huniq : ∀ it ∈ db.items, it.id = item.id → it = item)
    (hk : k ≠ item.invoiceId) :
    (updDB item item_in db).itemSum k = db.itemSum k := by
  show itemsSumOf (updDB item item_in db).items k = itemsSumOf db.items k
  unfold updDB itemsSumOf
  rw [liveItemsOf_update_ne db.items item item_in.description item_in.quantity
    item_in.unitPrice huniq hk]

theorem markDB_itemSum_ne (item : InvoiceItem) (t : Nat) (db : DB) {k : Nat}
    (huniq : ∀ it ∈ db.items, it.id = item.id → it = item)
    (hk : k ≠ item.invoiceId) :
    (markDB item t db).itemSum k = db.itemSum k := by
  show itemsSumOf (markDB item t db).items k = itemsSumOf db.items k
  unfold markDB itemsSumOf
  rw [liveItemsOf_mark_ne db.items item t huniq hk]

/-- C2: the totals invariants hold after every item mutation — on a
well-formed store already satisfying them, `createInvoice`, `addItem`,
`updateItem` (on the invoice's live item row) and `deleteItem` all leave
every invoice's `total_amount` equal to the sum of `total_amount` over its
non-deleted items, and every item's `total_amount` equal to
`quantity * unit_price`; and `recalculate_total` assigns the recalculated
invoice exactly the sum over its items with null `deleted_at`, reading but
not touching the item table. -/
theorem C2_totals_engine (db : DB) (hWF : WF db) (htot : totalsInvariant db)
    (hit : itemTotalsInvariant db) :
    (∀ invId,
        (∀ inv' ∈ (InvoiceService.recalculate_total invId db).invoices,
          inv'.id = invId →
            inv'.total_amount = (InvoiceService.recalculate_total invId db).itemSum invId) ∧
        (InvoiceService.recalculate_total invId db).items = db.items) ∧
    (∀ inp : InvoiceCreate,
        totalsInvariant (InvoiceService.create inp db).2 ∧
        itemTotalsInvariant (InvoiceService.create inp db).2) ∧
    (∀ (invoice : Invoice) (item_in : InvoiceItemCreate),
        totalsInvariant (InvoiceService.add_item invoice item_in db).2 ∧
        itemTotalsInvariant (InvoiceService.add_item invoice item_in db).2) ∧
    (∀ (item : InvoiceItem) (item_in : InvoiceItemCreate), item ∈ db.items →
        (∀ it ∈ db.items, it.id = item.id → it = item) →
        totalsInvariant (InvoiceService.update_item item item_in db) ∧
        itemTotalsInvariant (InvoiceService.update_item item item_in db)) ∧
    (∀ (item : InvoiceItem) (db' : DB), item ∈ db.items →
        (∀ it ∈ db.items, it.id = item.id → it = item) →
        InvoiceService.delete_item item db = some db' →
        totalsInvariant db' ∧ itemTotalsInvariant db') := by
  refine ⟨?_, ?_, ?_, ?_, ?_⟩
  · -- recalculate_total
    intro invId
    refine ⟨?_, rfl⟩
    intro inv' hmem hid'
    rw [recalculate_total_invoices] at hmem
    obtain ⟨inv, hinv, rfl⟩ := List.mem_map.mp hmem
    by_cases hid : inv.id = invId
    · rw [if_pos (by simp [hid])]
      rfl
    · exfalso
      rw [if_neg (by simp [hid])] at hid'
      exact hid hid'
  · -- createInvoice
    intro inp
    constructor
    · intro inv' hmem
      rw [create_snd_invoices] at hmem
      have hsum : ∀ k, (InvoiceService.create inp db).2.itemSum k =
          itemsSumOf db.items k +
            itemsSumOf (InvoiceService.mkItems db.nextId (db.nextId + 1) inp.items) k := by
        intro k
        show itemsSumOf (InvoiceService.create inp db).2.items k = _
        rw [create_snd_items, itemsSumOf_append]
      rcases List.mem_append.mp hmem with h | h
      · rw [hsum, mkItems_sum_ne _ _ _ (Nat.ne_of_lt (hWF.1 inv' h)), add_zero]
        exact htot inv' h
      · rw [List.mem_singleton] at h
        subst h
        rw [create_fst]
        show sumBy inp.items (fun it => it.quantity * it.unitPrice) =
          (InvoiceService.create inp db).2.itemSum db.nextId
        rw [hsum, itemsSumOf_fresh (fun it hit => Nat.ne_of_lt (hWF.2.1 it hit)),
          mkItems_sum, zero_add]
    · intro it' hmem
      rw [create_snd_items] at hmem
      rcases List.mem_append.mp hmem with h | h
      · exact hit it' h
      · exact (mkItems_mem it' h).2.2
  · -- addItem
    intro invoice item_in
    rw [add_item_snd]
    constructor
    · apply totalsInvariant_recalc_of
      intro inv hinv hne
      have hstep : ({ db with
          items := db.items ++ [addItemRow invoice item_in db]
          nextId := db.nextId + 1 } : DB).itemSum inv.id = db.itemSum inv.id := by
        show itemsSumOf (db.items ++ [addItemRow invoice item_in db]) inv.id = _
        rw [itemsSumOf_append,
          itemsSumOf_singleton_ne (fun hc => hne hc.symm), add_zero]
        rfl
      rw [hstep]
      exact htot inv hinv
    · intro it' hmem
      have hmem' : it' ∈ db.items ++ [addItemRow invoice item_in db] := hmem
      rcases List.mem_append.mp hmem' with h | h
      · exact hit it' h
      · rw [List.mem_singleton] at h
        subst h
        rfl
  · -- updateItem
    intro item item_in hmemItem huniq
    rw [update_item_eq]
    have hitUpd : itemTotalsInvariant (updDB item item_in db) := by
      intro it' hmem'
      obtain ⟨it, hit', rfl⟩ := List.mem_map.mp hmem'
      by_cases hidq : it.id = item.id
      · rw [if_pos (by simp [hidq])]
      · rw [if_neg (by simp [hidq])]
        exact hit it hit'
    by_cases hguard : db.invoices.any (fun inv => inv.id == item.invoiceId) = true
    · rw [if_pos hguard]
      constructor
      · apply totalsInvariant_recalc_of
        intro inv hinv hne
        rw [updDB_itemSum_ne item item_in db huniq hne]
        exact htot inv hinv
      · exact hitUpd
    · rw [if_neg hguard]
      constructor
      · intro inv hinv
        have hne : inv.id ≠ item.invoiceId := by
          intro hc
          exact hguard (List.any_eq_true.mpr ⟨inv, hinv, by simp [hc]⟩)
        rw [updDB_itemSum_ne item item_in db huniq hne]
        exact htot inv hinv
      · exact hitUpd
  · -- deleteItem
    intro item db' hmemItem huniq hdel
    rw [delete_item_eq] at hdel
    have hitMark : itemTotalsInvariant (markDB item db.now db) := by
      intro it' hmem'
      obtain ⟨it, hit', rfl⟩ := List.mem_map.mp hmem'
      by_cases hidq : it.id = item.id
      · rw [if_pos (by simp [hidq])]
        exact hit it hit'
      · rw [if_neg (by simp [hidq])]
        exact hit it hit'
    by_cases hrem : ((db.items.filter (fun it =>
        it.invoiceId == item.invoiceId && it.deletedAt.isNone &&
          it.id != item.id)).length == 0) = true
    · rw [if_pos hrem] at hdel
      cases hdel
    · rw [if_neg hrem] at hdel
      by_cases hguard : db.invoices.any (fun inv => inv.id == item.invoiceId) = true
      · rw [if_pos hguard] at hdel
        cases hdel
        constructor
        · apply totalsInvariant_recalc_of
          intro inv hinv hne
          rw [markDB_itemSum_ne item db.now db huniq hne]
          exact htot inv hinv
        · exact hitMark
      · rw [if_neg hguard] at hdel
        cases hdel
        constructor
        · intro inv hinv
          have hne : inv.id ≠ item.invoiceId := by
            intro hc
            exact hguard (List.any_eq_true.mpr ⟨inv, hinv, by simp [hc]⟩)
          rw [markDB_itemSum_ne item db.now db huniq hne]
          exact htot inv hinv
        · exact hitMark

def c2Db : DB :=
  ⟨[], [], [⟨1, 1, 0, 10, 175, .pending, none⟩],
    [⟨2, 1, "a", 1, 100, 100, none⟩, ⟨3, 1, "b", 1, 50, 50, none⟩,
      ⟨4, 1, "c", 1, 25, 25, none⟩], [], 5, 6⟩

def c2Inv : Invoice := ⟨1, 1, 0, 10, 175, .pending, none⟩

theorem C2_witness :
    totalsInvariant (InvoiceService.add_item c2Inv ⟨"d", 2, 10⟩ c2Db).2 ∧
      itemTotalsInvariant (InvoiceService.add_item c2Inv ⟨"d", 2, 10⟩ c2Db).2 :=
  (C2_totals_engine c2Db (by decide) (by decide) (by decide)).2.2.1 c2Inv ⟨"d", 2, 10⟩

/-- C5: `deleteItem` counts the other non-deleted items of the same invoice;
a zero count makes it fail (`none`) with the whole store untouched, surfaced
by the route as the last-item outcome, distinguishable from the two
not-found outcomes; a positive count stamps the item's `deleted_at` and
recalculates the invoice total; the invoice keeps at least one non-deleted
item, and every invoice that had a non-deleted item still has one. -/
theorem C5_delete_item_guard (db : DB) (item : InvoiceItem)
    (hmem : item ∈ db.items)
    (huniq : ∀ it ∈ db.items, it.id = item.id → it = item) :
    ((db.items.filter (fun it =>
        it.invoiceId == item.invoiceId && it.deletedAt.isNone &&
          it.id != item.id)).length = 0 →
      InvoiceService.delete_item item db = none) ∧
    (∀ invoiceId itemId invoice,
        InvoiceService.get_by_id invoiceId db = some invoice →
        InvoiceService.get_item invoiceId itemId db = some item →
        delete_invoice_item invoiceId itemId db =
          match InvoiceService.delete_item item db with
          | none => (DeleteItemResult.lastItem, db)
          | some db1 => (DeleteItemResult.ok, db1)) ∧
    (∀ db', InvoiceService.delete_item item db = some db' →
        (∀ it ∈ db'.items, it.id = item.id → it.deletedAt = some db.now) ∧
        (∀ inv ∈ db'.invoices, inv.id = item.invoiceId →
          inv.total_amount = db'.itemSum item.invoiceId) ∧
        1 ≤ db'.liveItemCount item.invoiceId ∧
        (∀ k, 1 ≤ db.liveItemCount k → 1 ≤ db'.liveItemCount k)) := by
  refine ⟨?_, ?_, ?_⟩
  · intro h0
    rw [delete_item_eq, if_pos (by simp [h0])]
  · intro invoiceId itemId invoice hbyid hgetitem
    simp only [delete_invoice_item, hbyid, hgetitem]
  · intro db' hdel
    rw [delete_item_eq] at hdel
    by_cases hrem : ((db.items.filter (fun it =>
        it.invoiceId == item.invoiceId && it.deletedAt.isNone &&
          it.id != item.id)).length == 0) = true
    · rw [if_pos hrem] at hdel
      cases hdel
    · rw [if_neg hrem] at hdel
      have hcount : 1 ≤ (db.items.filter (fun it =>
          it.invoiceId == item.invoiceId && it.deletedAt.isNone &&
            it.id != item.id)).length := by
        refine Nat.pos_of_ne_zero ?_
        intro hc
        exact hrem (by simp [hc])
      have hA : ∀ it' ∈ (markDB item db.now db).items, it'.id = item.id →
          it'.deletedAt = some db.now := by
        intro it' hmem' hid'
        simp only [markDB] at hmem'
        obtain ⟨it, hit', rfl⟩ := List.mem_map.mp hmem'
        by_cases hidq : it.id = item.id
        · rw [if_pos (by simp [hidq])]
        · exfalso
          rw [if_neg (by simp [hidq])] at hid'
          exact hidq hid'
      have hC : 1 ≤ (markDB item db.now db).liveItemCount item.invoiceId := by
        have hle := length_filter_le_filter_map
          (fun it : InvoiceItem =>
            if it.id == item.id then { it with deletedAt := some db.now } else it)
          (p := fun it : InvoiceItem =>
            it.invoiceId == item.invoiceId && it.deletedAt.isNone)
          (q := fun it : InvoiceItem =>
            it.invoiceId == item.invoiceId && it.deletedAt.isNone && it.id != item.id)
          (l := db.items)
          (by
            intro a ha hq
            simp only [Bool.and_eq_true, bne_iff_ne, ne_eq] at hq
            constructor
            · simp [hq.2]
            · simp [hq.1.1, hq.1.2])
        exact le_trans hcount hle
      have hK : ∀ k, k ≠ item.invoiceId →
          (markDB item db.now db).liveItemCount k = db.liveItemCount k := by
        intro k hk
        show (liveItemsOf (markDB item db.now db).items k).length =
          (liveItemsOf db.items k).length
        simp only [markDB]
        rw [liveItemsOf_mark_ne db.items item db.now huniq hk]
      by_cases hguard : db.invoices.any (fun inv => inv.id == item.invoiceId) = true
      · rw [if_pos hguard] at hdel
        cases hdel
        refine ⟨hA, ?_, hC, ?_⟩
        · intro inv hinvmem hid'
          rw [recalculate_total_invoices] at hinvmem
          obtain ⟨i, hi, rfl⟩ := List.mem_map.mp hinvmem
          by_cases hidq : i.id = item.invoiceId
          · rw [if_pos (by simp [hidq])]
            rfl
          · exfalso
            rw [if_neg (by simp [hidq])] at hid'
            exact hidq hid'
        · intro k hk
          by_cases hkj : k = item.invoiceId
          · rw [hkj]
            exact hC
          · have heq : (InvoiceService.recalculate_total item.invoiceId
                (markDB item db.now db)).liveItemCount k = db.liveItemCount k := hK k hkj
            rw [heq]
            exact hk
      · rw [if_neg hguard] at hdel
        cases hdel
        refine ⟨hA, ?_, hC, ?_⟩
        · intro inv hinvmem hid'
          exact absurd (List.any_eq_true.mpr ⟨inv, hinvmem, by simp [hid']⟩) hguard
        · intro k hk
          by_cases hkj : k = item.invoiceId
          · rw [hkj]
            exact hC
          · rw [hK k hkj]
            exact hk

def c5Db : DB :=
  ⟨[], [], [⟨1, 1, 0, 10, 100, .pending, none⟩],
    [⟨2, 1, "only", 1, 100, 100, none⟩], [], 3, 4⟩

def c5Item : InvoiceItem := ⟨2, 1, "only", 1, 100, 100, none⟩

theorem C5_witness : InvoiceService.delete_item c5Item c5Db = none :=
  (C5_delete_item_guard c5Db c5Item (by decide) (by decide)).1 (by decide)

/-- Invoice id/status pairs of a store, the footprint the status-framing
facts are stated over. -/
def statuses (db : DB) : List (Nat × InvoiceStatus) :=
  db.invoices.map (fun inv => (inv.id, inv.status))

theorem statuses_map (l : List Invoice) (f : Invoice → Invoice)
    (h : ∀ inv, (f inv).id = inv.id ∧ (f inv).status = inv.status) :
    (l.map f).map (fun inv => (inv.id, inv.status)) =
      l.map (fun inv => (inv.id, inv.status)) := by
  rw [List.map_map]
  apply List.map_congr_left
  intro inv _
  simp [Function.comp_def, (h inv).1, (h inv).2]

def c10Create : Invoice × DB :=
  InvoiceService.create ⟨1, 0, 10, .pending, [⟨"Tuition", 1, 100⟩]⟩
    ⟨[], [], [], [], [], 1, 7⟩

def c10Db : DB :=
  (InvoiceService.add_item c10Create.1 ⟨"Books", 3, 500⟩
    (PaymentService.create c10Create.1 ⟨5, 100, .cash⟩ c10Create.2).2).2

/-- C10: the item operations and `recalculate_total` never change any
invoice's status (witnessed on the id/status footprint of the store), and
consequently a store reached by fully paying an invoice and then adding an
item holds an invoice whose status is PAID while its non-deleted payment
sum is strictly below its `total_amount`. -/
theorem C10_item_ops_preserve_status (db : DB) :
    (∀ invId, statuses (InvoiceService.recalculate_total invId db) = statuses db) ∧
    (∀ (invoice : Invoice) (item_in : InvoiceItemCreate),
        statuses (InvoiceService.add_item invoice item_in db).2 = statuses db) ∧
    (∀ (item : InvoiceItem) (item_in : InvoiceItemCreate),
        statuses (InvoiceService.update_item item item_in db) = statuses db) ∧
    (∀ (item : InvoiceItem) (db' : DB),
        InvoiceService.delete_item item db = some db' → statuses db' = statuses db) ∧
    (∃ inv ∈ c10Db.invoices,
        inv.status = .paid ∧ c10Db.paidSum inv.id < inv.total_amount) := by
  have hrec : ∀ (invId : Nat) (dbx : DB),
      statuses (InvoiceService.recalculate_total invId dbx) = statuses dbx := by
    intro invId dbx
    show ((dbx.invoices.map _).map _) = _
    apply statuses_map
    intro inv
    by_cases h : inv.id = invId
    · constructor <;> rw [if_pos (by simp [h])]
    · constructor <;> rw [if_neg (by simp [h])]
  refine ⟨fun invId => hrec invId db, ?_, ?_, ?_, ?_⟩
  · intro invoice item_in
    rw [add_item_snd]
    exact hrec invoice.id _
  · intro item item_in
    rw [update_item_eq]
    by_cases hguard : db.invoices.any (fun inv => inv.id == item.invoiceId) = true
    · rw [if_pos hguard]
      exact hrec item.invoiceId _
    · rw [if_neg hguard]
      rfl
  · intro item db' hdel
    rw [delete_item_eq] at hdel
    by_cases hrem : ((db.items.filter (fun it =>
        it.invoiceId == item.invoiceId && it.deletedAt.isNone &&
          it.id != item.id)).length == 0) = true
    · rw [if_pos hrem] at hdel
      cases hdel
    · rw [if_neg hrem] at hdel
      by_cases hguard : db.invoices.any (fun inv => inv.id == item.invoiceId) = true
      · rw [if_pos hguard] at hdel
        cases hdel
        exact hrec item.invoiceId _
      · rw [if_neg hguard] at hdel
        cases hdel
        rfl
  · decide

/-- C6: every student and every school statement returns a summary whose
`total_pending` is exactly `total_invoiced - total_paid`, where
`total_invoiced` is the eligible-invoice aggregate (an empty eligible set
gives zero) and `total_paid` the non-deleted-payment aggregate over eligible
invoices; `total_pending` is derived from the two aggregates, not read from
any stored field. -/
theorem C6_statement_pending (studentId schoolId : Nat) (startDate endDate : Int)
    (includeInvoices : Bool) (db : DB) :
    (∀ st, StudentStatementService.get_statement studentId startDate endDate
        includeInvoices db = some st →
      st.summary.total_pending = st.summary.total_invoiced - st.summary.total_paid ∧
      st.summary.total_invoiced =
        StudentStatementService.total_invoiced studentId startDate endDate db ∧
      st.summary.total_paid =
        StudentStatementService.total_paid studentId startDate endDate db ∧
      (db.invoices.filter
          (StudentStatementService.baseFilter studentId startDate endDate) = [] →
        st.summary.total_invoiced = 0)) ∧
    (∀ st, SchoolStatementService.get_statement schoolId startDate endDate
        includeInvoices db = some st →
      st.summary.total_pending = st.summary.total_invoiced - st.summary.total_paid ∧
      st.summary.total_invoiced =
        SchoolStatementService.total_invoiced schoolId startDate endDate db ∧
      st.summary.total_paid =
        SchoolStatementService.total_paid schoolId startDate endDate db) := by
  constructor
  · intro st hst
    unfold StudentStatementService.get_statement at hst
    cases hstu : db.students.find? (fun s => s.id == studentId && s.deletedAt.isNone) with
    | none =>
      simp only [hstu] at hst
      cases hst
    | some student =>
      simp only [hstu] at hst
      cases hsch : db.schools.find? (fun sc => sc.id == student.schoolId) with
      | none =>
        simp only [hsch] at hst
        cases hst
      | some school =>
        simp only [hsch] at hst
        cases hst
        refine ⟨rfl, rfl, rfl, fun h0 => ?_⟩
        show StudentStatementService.total_invoiced studentId startDate endDate db = 0
        unfold StudentStatementService.total_invoiced
        rw [h0]
        rfl
  · intro st hst
    unfold SchoolStatementService.get_statement at hst
    cases hsch : db.schools.find? (fun sc => sc.id == schoolId && sc.deletedAt.isNone) with
    | none =>
      simp only [hsch] at hst
      cases hst
    | some school =>
      simp only [hsch] at hst
      cases hst
      exact ⟨rfl, rfl, rfl⟩

def c6Db : DB :=
  ⟨[⟨1, "School One", none⟩], [⟨1, 1, "Ada", "L", none⟩],
    [⟨2, 1, 5, 15, 1000, .pending, none⟩], [⟨3, 2, "t", 1, 1000, 1000, none⟩],
    [⟨4, 2, 6, 600, .cash, none⟩], 5, 0⟩

def c6StS : StudentStatementService.StudentStatement :=
  (StudentStatementService.get_statement 1 0 10 true c6Db).getD
    ⟨0, "", 0, "", 0, 0, ⟨0, 0, 0⟩, none⟩

def c6ScS : SchoolStatementService.SchoolStatement :=
  (SchoolStatementService.get_statement 1 0 10 true c6Db).getD
    ⟨0, "", 0, 0, 0, ⟨0, 0, 0⟩, none⟩

theorem C6_witness :
    c6StS.summary.total_pending =
        c6StS.summary.total_invoiced - c6StS.summary.total_paid ∧
      c6ScS.summary.total_pending =
        c6ScS.summary.total_invoiced - c6ScS.summary.total_paid :=
  ⟨((C6_statement_pending 1 1 0 10 true c6Db).1 c6StS (by decide)).1,
    ((C6_statement_pending 1 1 0 10 true c6Db).2 c6ScS (by decide)).1⟩

theorem C10_witness :
    statuses ((InvoiceService.delete_item ⟨4, 1, "Books", 3, 500, 1500, none⟩
        c10Db).getD c10Db) = statuses c10Db :=
  (C10_item_ops_preserve_status c10Db).2.2.2.1 ⟨4, 1, "Books", 3, 500, 1500, none⟩
    _ (by decide)

def c9Db : DB :=
  ⟨[⟨1, "Ghost Academy", some 5⟩], [⟨1, 1, "Ada", "Lovelace", none⟩],
    [], [], [], 2, 9⟩

/-- C9 counterexample: in a store whose only school row is soft-deleted,
`getStudentStatement` (both the dated statement service and the account
statement variant) still returns a statement carrying the deleted school's
name — the school read of the student statement is not filtered on
`deleted_at IS NULL`, so not every entity it reads is so filtered. -/
theorem C9_counterexample :
    (∀ sc ∈ c9Db.schools, sc.deletedAt ≠ none) ∧
    (StudentStatementService.get_statement 1 0 10 false c9Db).map
        (fun st => st.school_name) = some "Ghost Academy" ∧
    (AccountStatementService.get_student_statement 1 c9Db).map
        (fun st => st.school_name) = some "Ghost Academy" := by decide

/-- Removal of every soft-deleted student, invoice, item and payment row;
school rows are kept (the student statement's school read is unfiltered,
see the counterexample). -/
def pruneDB (db : DB) : DB :=
  { db with
    students := db.students.filter (fun s => s.deletedAt.isNone)
    invoices := db.invoices.filter (fun i => i.deletedAt.isNone)
    items := db.items.filter (fun it => it.deletedAt.isNone)
    payments := db.payments.filter (fun p => p.deletedAt.isNone) }

/-- C9 (amended): every exposed read path filters soft-deleted rows — the
student and school statements and the invoice/item/payment lookups are
unchanged when all soft-deleted students, invoices, items and payments are
removed from the store — with the one exception forced by the
counterexample: the school row read by the student statement is fetched
without the deleted filter, so school rows must be kept for the statement
to be preserved. -/
theorem C9_soft_delete_filters (db : DB) :
    (∀ (studentId : Nat) (s e : Int) (b : Bool),
        StudentStatementService.get_statement studentId s e b (pruneDB db) =
          StudentStatementService.get_statement studentId s e b db) ∧
    (∀ (schoolId : Nat) (s e : Int) (b : Bool),
        SchoolStatementService.get_statement schoolId s e b (pruneDB db) =
          SchoolStatementService.get_statement schoolId s e b db) ∧
    (∀ invoiceId, InvoiceService.get_by_id invoiceId (pruneDB db) =
        InvoiceService.get_by_id invoiceId db) ∧
    (∀ invoiceId itemId, InvoiceService.get_item invoiceId itemId (pruneDB db) =
        InvoiceService.get_item invoiceId itemId db) ∧
    (∀ invoiceId, PaymentService.get_by_invoice invoiceId (pruneDB db) =
        PaymentService.get_by_invoice invoiceId db) := by
  have hbase_imp : ∀ (sid : Nat) (s e : Int) (i : Invoice),
      StudentStatementService.baseFilter sid s e i = true →
        i.deletedAt.isNone = true := by
    intro sid s e i h
    unfold StudentStatementService.baseFilter at h
    simp only [Bool.and_eq_true] at h
    exact h.1.1.1.2
  have hinvf_imp : ∀ (s e : Int) (i : Invoice),
      SchoolStatementService.invFilter s e i = true → i.deletedAt.isNone = true := by
    intro s e i h
    unfold SchoolStatementService.invFilter at h
    simp only [Bool.and_eq_true] at h
    exact h.1.1.1
  have hjoin_imp : ∀ (scid : Nat) (i : Invoice) (st : Student),
      SchoolStatementService.studentJoin scid i st = true →
        st.deletedAt.isNone = true := by
    intro scid i st h
    unfold SchoolStatementService.studentJoin at h
    simp only [Bool.and_eq_true] at h
    exact h.2
  have hpaid : ∀ k, (pruneDB db).paidSum k = db.paidSum k := by
    intro k
    show paymentsSumOf (pruneDB db).payments k = _
    simp only [pruneDB]
    unfold paymentsSumOf livePaymentsOf
    rw [filter_filter_of_imp db.payments
      (fun a h => by simp only [Bool.and_eq_true] at h; exact h.2)]
    rfl
  have htotinv : ∀ (sid : Nat) (s e : Int),
      StudentStatementService.total_invoiced sid s e (pruneDB db) =
        StudentStatementService.total_invoiced sid s e db := by
    intro sid s e
    unfold StudentStatementService.total_invoiced
    simp only [pruneDB]
    rw [filter_filter_of_imp db.invoices (hbase_imp sid s e)]
  have htotpaid : ∀ (sid : Nat) (s e : Int),
      StudentStatementService.total_paid sid s e (pruneDB db) =
        StudentStatementService.total_paid sid s e db := by
    intro sid s e
    unfold StudentStatementService.total_paid
    simp only [pruneDB]
    rw [filter_filter_of_imp db.payments (fun a h => h)]
    apply sumBy_congr
    intro p hp
    rw [filter_filter_of_imp db.invoices (fun i h => by
      simp only [Bool.and_eq_true] at h
      exact hbase_imp sid s e i h.2)]
  have hrows : ∀ (sid : Nat) (s e : Int),
      StudentStatementService.build_invoice_rows sid s e (pruneDB db) =
        StudentStatementService.build_invoice_rows sid s e db := by
    intro sid s e
    unfold StudentStatementService.build_invoice_rows
    simp only [hpaid]
    rw [show (pruneDB db).invoices = db.invoices.filter (fun i => i.deletedAt.isNone) from rfl,
      filter_filter_of_imp db.invoices (hbase_imp sid s e)]
  have hfindstu : ∀ sid : Nat,
      (pruneDB db).students.find? (fun s => s.id == sid && s.deletedAt.isNone) =
        db.students.find? (fun s => s.id == sid && s.deletedAt.isNone) := by
    intro sid
    simp only [pruneDB]
    exact find?_filter_of_imp db.students
      (fun a h => by simp only [Bool.and_eq_true] at h; exact h.2)
  have hstudent : ∀ (sid : Nat) (s e : Int) (b : Bool),
      StudentStatementService.get_statement sid s e b (pruneDB db) =
        StudentStatementService.get_statement sid s e b db := by
    intro sid s e b
    unfold StudentStatementService.get_statement
    rw [hfindstu sid]
    cases db.students.find? (fun s => s.id == sid && s.deletedAt.isNone) with
    | none => rfl
    | some student =>
      simp only [htotinv, htotpaid, hrows]
      rw [show (pruneDB db).schools = db.schools from rfl]
  have hcountstu : ∀ scid : Nat,
      (pruneDB db).students.filter (fun s => s.schoolId == scid && s.deletedAt.isNone) =
        db.students.filter (fun s => s.schoolId == scid && s.deletedAt.isNone) := by
    intro scid
    simp only [pruneDB]
    exact filter_filter_of_imp db.students
      (fun a h => by simp only [Bool.and_eq_true] at h; exact h.2)
  have hanyjoin : ∀ (scid : Nat) (i : Invoice),
      (pruneDB db).students.any (SchoolStatementService.studentJoin scid i) =
        db.students.any (SchoolStatementService.studentJoin scid i) := by
    intro scid i
    simp only [pruneDB]
    exact any_filter_of_imp db.students (hjoin_imp scid i)
  have hjoinsum : ∀ (scid : Nat) (i : Invoice) (v : Student → Int),
      sumBy ((pruneDB db).students.filter (SchoolStatementService.studentJoin scid i)) v =
        sumBy (db.students.filter (SchoolStatementService.studentJoin scid i)) v := by
    intro scid i v
    simp only [pruneDB]
    rw [filter_filter_of_imp db.students (hjoin_imp scid i)]
  have htotinvS : ∀ (scid : Nat) (s e : Int),
      SchoolStatementService.total_invoiced scid s e (pruneDB db) =
        SchoolStatementService.total_invoiced scid s e db := by
    intro scid s e
    unfold SchoolStatementService.total_invoiced
    rw [show (pruneDB db).invoices = db.invoices.filter (fun i => i.deletedAt.isNone) from rfl,
      filter_filter_of_imp db.invoices (hinvf_imp s e)]
    apply sumBy_congr
    intro i hi
    exact hjoinsum scid i _
  have htotpaidS : ∀ (scid : Nat) (s e : Int),
      SchoolStatementService.total_paid scid s e (pruneDB db) =
        SchoolStatementService.total_paid scid s e db := by
    intro scid s e
    unfold SchoolStatementService.total_paid
    rw [show (pruneDB db).payments = db.payments.filter (fun p => p.deletedAt.isNone) from rfl,
      filter_filter_of_imp db.payments (fun a h => h)]
    apply sumBy_congr
    intro p hp
    rw [show (pruneDB db).invoices = db.invoices.filter (fun i => i.deletedAt.isNone) from rfl,
      filter_filter_of_imp db.invoices (fun i h => by
        simp only [Bool.and_eq_true] at h
        exact hinvf_imp s e i h.2)]
    apply sumBy_congr
    intro i hi
    exact hjoinsum scid i _
  have hrowsS : ∀ (scid : Nat) (s e : Int),
      SchoolStatementService.build_invoice_rows scid s e (pruneDB db) =
        SchoolStatementService.build_invoice_rows scid s e db := by
    intro scid s e
    unfold SchoolStatementService.build_invoice_rows
    rw [show (pruneDB db).invoices = db.invoices.filter (fun i => i.deletedAt.isNone) from rfl]
    rw [List.filter_congr (fun i _ => by rw [hanyjoin scid i] :
      ∀ i ∈ db.invoices.filter (fun i => i.deletedAt.isNone),
        (SchoolStatementService.invFilter s e i &&
            (pruneDB db).students.any (SchoolStatementService.studentJoin scid i)) =
          (SchoolStatementService.invFilter s e i &&
            db.students.any (SchoolStatementService.studentJoin scid i)))]
    rw [filter_filter_of_imp db.invoices (fun i h => by
      simp only [Bool.and_eq_true] at h
      exact hinvf_imp s e i h.1)]
    simp only [hpaid]
  have hschool : ∀ (scid : Nat) (s e : Int) (b : Bool),
      SchoolStatementService.get_statement scid s e b (pruneDB db) =
        SchoolStatementService.get_statement scid s e b db := by
    intro scid s e b
    unfold SchoolStatementService.get_statement
    rw [show (pruneDB db).schools = db.schools from rfl]
    cases db.schools.find? (fun sc => sc.id == scid && sc.deletedAt.isNone) with
    | none => rfl
    | some school =>
      simp only [htotinvS, htotpaidS, hrowsS, hcountstu]
  refine ⟨hstudent, hschool, ?_, ?_, ?_⟩
  · intro invoiceId
    show ((db.invoices.filter (fun i => i.deletedAt.isNone)).find?
        (fun inv => inv.id == invoiceId && inv.deletedAt.isNone)) = _
    exact find?_filter_of_imp db.invoices
      (fun a h => by simp only [Bool.and_eq_true] at h; exact h.2)
  · intro invoiceId itemId
    show ((db.items.filter (fun it => it.deletedAt.isNone)).find?
        (fun it => it.id == itemId && it.invoiceId == invoiceId && it.deletedAt.isNone)) = _
    exact find?_filter_of_imp db.items
      (fun a h => by simp only [Bool.and_eq_true] at h; exact h.2)
  · intro invoiceId
    show ((db.payments.filter (fun p => p.deletedAt.isNone)).filter
        (fun p => p.invoiceId == invoiceId && p.deletedAt.isNone)) = _
    exact filter_filter_of_imp db.payments
      (fun a h => by simp only [Bool.and_eq_true] at h; exact h.2)

/-- A store extended with one more invoice and a set of payment rows
attached to it — the frame used to state that a CANCELLED invoice
contributes nothing to any statement. -/
def addInvoiceAndPayments (db : DB) (inv : Invoice) (ps : List Payment) : DB :=
  { db with invoices := db.invoices ++ [inv], payments := db.payments ++ ps }

/-- C7: adding a CANCELLED invoice (fresh id, arbitrary `deleted_at`)
together with any payments attached to it changes no student statement and
no school statement at all — it contributes 0 to `total_invoiced`,
`total_paid` and `total_pending` and never appears in the invoice
breakdown. -/
theorem C7_cancelled_excluded (db : DB) (inv : Invoice) (ps : List Payment)
    (hcan : inv.status = .cancelled)
    (hps : ∀ q ∈ ps, q.invoiceId = inv.id)
    (hfresh : ∀ i ∈ db.invoices, i.id ≠ inv.id) :
    (∀ (studentId : Nat) (s e : Int) (b : Bool),
        StudentStatementService.get_statement studentId s e b
            (addInvoiceAndPayments db inv ps) =
          StudentStatementService.get_statement studentId s e b db) ∧
    (∀ (schoolId : Nat) (s e : Int) (b : Bool),
        SchoolStatementService.get_statement schoolId s e b
            (addInvoiceAndPayments db inv ps) =
          SchoolStatementService.get_statement schoolId s e b db) := by
  have hbaseF : ∀ (sid : Nat) (s e : Int),
      StudentStatementService.baseFilter sid s e inv = false := by
    intro sid s e
    unfold StudentStatementService.baseFilter
    simp [hcan]
  have hinvF : ∀ (s e : Int), SchoolStatementService.invFilter s e inv = false := by
    intro s e
    unfold SchoolStatementService.invFilter
    simp [hcan]
  have hfilterStu : ∀ (sid : Nat) (s e : Int),
      (db.invoices ++ [inv]).filter (StudentStatementService.baseFilter sid s e) =
        db.invoices.filter (StudentStatementService.baseFilter sid s e) := by
    intro sid s e
    have h1 : [inv].filter (StudentStatementService.baseFilter sid s e) = [] :=
      filter_eq_nil_of_forall (fun i hi => by
        rw [List.mem_singleton] at hi
        subst hi
        exact hbaseF sid s e)
    rw [List.filter_append, h1, List.append_nil]
  have hinner_oldStu : ∀ (sid : Nat) (s e : Int) (q : Payment),
      (db.invoices ++ [inv]).filter (fun i =>
          i.id == q.invoiceId && StudentStatementService.baseFilter sid s e i) =
        db.invoices.filter (fun i =>
          i.id == q.invoiceId && StudentStatementService.baseFilter sid s e i) := by
    intro sid s e q
    have h1 : [inv].filter (fun i =>
        i.id == q.invoiceId && StudentStatementService.baseFilter sid s e i) = [] :=
      filter_eq_nil_of_forall (fun i hi => by
        rw [List.mem_singleton] at hi
        subst hi
        simp [hbaseF sid s e])
    rw [List.filter_append, h1, List.append_nil]
  have hinner_newStu : ∀ (sid : Nat) (s e : Int) (q : Payment), q ∈ ps →
      (db.invoices ++ [inv]).filter (fun i =>
          i.id == q.invoiceId && StudentStatementService.baseFilter sid s e i) = [] := by
    intro sid s e q hq
    have h1 : db.invoices.filter (fun i =>
        i.id == q.invoiceId && StudentStatementService.baseFilter sid s e i) = [] :=
      filter_eq_nil_of_forall (fun i hi => by simp [hps q hq, hfresh i hi])
    have h2 : [inv].filter (fun i =>
        i.id == q.invoiceId && StudentStatementService.baseFilter sid s e i) = [] :=
      filter_eq_nil_of_forall (fun i hi => by
        rw [List.mem_singleton] at hi
        subst hi
        simp [hbaseF sid s e])
    rw [List.filter_append, h1, h2]
    rfl
  have htotinvStu : ∀ (sid : Nat) (s e : Int),
      StudentStatementService.total_invoiced sid s e (addInvoiceAndPayments db inv ps) =
        StudentStatementService.total_invoiced sid s e db := by
    intro sid s e
    unfold StudentStatementService.total_invoiced
    rw [show (addInvoiceAndPayments db inv ps).invoices = db.invoices ++ [inv] from rfl,
      hfilterStu sid s e]
  have htotpaidStu : ∀ (sid : Nat) (s e : Int),
      StudentStatementService.total_paid sid s e (addInvoiceAndPayments db inv ps) =
        StudentStatementService.total_paid sid s e db := by
    intro sid s e
    unfold StudentStatementService.total_paid
    simp only [show (addInvoiceAndPayments db inv ps).payments = db.payments ++ ps from rfl,
      show (addInvoiceAndPayments db inv ps).invoices = db.invoices ++ [inv] from rfl]
    rw [List.filter_append, sumBy_append]
    have hz : sumBy (ps.filter (fun p => p.deletedAt.isNone)) (fun p =>
        sumBy ((db.invoices ++ [inv]).filter (fun i =>
            i.id == p.invoiceId && StudentStatementService.baseFilter sid s e i))
          (fun _ => p.amount)) = 0 := by
      rw [sumBy_congr (fun q hq => by
        rw [hinner_newStu sid s e q (List.mem_filter.mp hq).1])]
      exact sumBy_const_zero _
    rw [hz, add_zero]
    exact sumBy_congr (fun q hq => by rw [hinner_oldStu sid s e q])
  have hpaidrow : ∀ k, k ≠ inv.id →
      (addInvoiceAndPayments db inv ps).paidSum k = db.paidSum k := by
    intro k hk
    show paymentsSumOf (db.payments ++ ps) k = _
    have h1 : paymentsSumOf ps k = 0 :=
      paymentsSumOf_fresh (fun q hq => by
        rw [hps q hq]
        exact fun hc => hk hc.symm)
    rw [paymentsSumOf_append, h1, add_zero]
    rfl
  have hrowsStu : ∀ (sid : Nat) (s e : Int),
      StudentStatementService.build_invoice_rows sid s e (addInvoiceAndPayments db inv ps) =
        StudentStatementService.build_invoice_rows sid s e db := by
    intro sid s e
    unfold StudentStatementService.build_invoice_rows
    rw [show (addInvoiceAndPayments db inv ps).invoices = db.invoices ++ [inv] from rfl,
      hfilterStu sid s e]
    by_cases hemp :
        (db.invoices.filter (StudentStatementService.baseFilter sid s e)).isEmpty = true
    · rw [if_pos hemp, if_pos hemp]
    · rw [if_neg hemp, if_neg hemp]
      apply List.map_congr_left
      intro i hi
      have hne : i.id ≠ inv.id := hfresh i (List.mem_filter.mp hi).1
      simp only [hpaidrow i.id hne]
  have hfilterSch : ∀ (scid : Nat) (s e : Int),
      (db.invoices ++ [inv]).filter (fun i =>
          SchoolStatementService.invFilter s e i &&
            db.students.any (SchoolStatementService.studentJoin scid i)) =
        db.invoices.filter (fun i =>
          SchoolStatementService.invFilter s e i &&
            db.students.any (SchoolStatementService.studentJoin scid i)) := by
    intro scid s e
    have h1 : [inv].filter (fun i =>
        SchoolStatementService.invFilter s e i &&
          db.students.any (SchoolStatementService.studentJoin scid i)) = [] :=
      filter_eq_nil_of_forall (fun i hi => by
        rw [List.mem_singleton] at hi
        subst hi
        simp [hinvF s e])
    rw [List.filter_append, h1, List.append_nil]
  have hinner_oldSch : ∀ (s e : Int) (q : Payment),
      (db.invoices ++ [inv]).filter (fun i =>
          i.id == q.invoiceId && SchoolStatementService.invFilter s e i) =
        db.invoices.filter (fun i =>
          i.id == q.invoiceId && SchoolStatementService.invFilter s e i) := by
    intro s e q
    have h1 : [inv].filter (fun i =>
        i.id == q.invoiceId && SchoolStatementService.invFilter s e i) = [] :=
      filter_eq_nil_of_forall (fun i hi => by
        rw [List.mem_singleton] at hi
        subst hi
        simp [hinvF s e])
    rw [List.filter_append, h1, List.append_nil]
  have hinner_newSch : ∀ (s e : Int) (q : Payment), q ∈ ps →
      (db.invoices ++ [inv]).filter (fun i =>
          i.id == q.invoiceId && SchoolStatementService.invFilter s e i) = [] := by
    intro s e q hq
    have h1 : db.invoices.filter (fun i =>
        i.id == q.invoiceId && SchoolStatementService.invFilter s e i) = [] :=
      filter_eq_nil_of_forall (fun i hi => by simp [hps q hq, hfresh i hi])
    have h2 : [inv].filter (fun i =>
        i.id == q.invoiceId && SchoolStatementService.invFilter s e i) = [] :=
      filter_eq_nil_of_forall (fun i hi => by
        rw [List.mem_singleton] at hi
        subst hi
        simp [hinvF s e])
    rw [List.filter_append, h1, h2]
    rfl
  have htotinvSch : ∀ (scid : Nat) (s e : Int),
      SchoolStatementService.total_invoiced scid s e (addInvoiceAndPayments db inv ps) =
        SchoolStatementService.total_invoiced scid s e db := by
    intro scid s e
    unfold SchoolStatementService.total_invoiced
    simp only [show (addInvoiceAndPayments db inv ps).invoices = db.invoices ++ [inv] from rfl,
      show (addInvoiceAndPayments db inv ps).students = db.students from rfl]
    have h1 : [inv].filter (SchoolStatementService.invFilter s e) = [] :=
      filter_eq_nil_of_forall (fun i hi => by
        rw [List.mem_singleton] at hi
        subst hi
        exact hinvF s e)
    rw [List.filter_append, h1, List.append_nil]
  have htotpaidSch : ∀ (scid : Nat) (s e : Int),
      SchoolStatementService.total_paid scid s e (addInvoiceAndPayments db inv ps) =
        SchoolStatementService.total_paid scid s e db := by
    intro scid s e
    unfold SchoolStatementService.total_paid
    simp only [show (addInvoiceAndPayments db inv ps).payments = db.payments ++ ps from rfl,
      show (addInvoiceAndPayments db inv ps).invoices = db.invoices ++ [inv] from rfl,
      show (addInvoiceAndPayments db inv ps).students = db.students from rfl]
    rw [List.filter_append, sumBy_append]
    have hz : sumBy (ps.filter (fun p => p.deletedAt.isNone)) (fun p =>
        sumBy ((db.invoices ++ [inv]).filter (fun i =>
            i.id == p.invoiceId && SchoolStatementService.invFilter s e i))
          (fun i => sumBy (db.students.filter
            (SchoolStatementService.studentJoin scid i)) (fun _ => p.amount))) = 0 := by
      rw [sumBy_congr (fun q hq => by
        rw [hinner_newSch s e q (List.mem_filter.mp hq).1])]
      exact sumBy_const_zero _
    rw [hz, add_zero]
    exact sumBy_congr (fun q hq => by rw [hinner_oldSch s e q])
  have hrowsSch : ∀ (scid : Nat) (s e : Int),
      SchoolStatementService.build_invoice_rows scid s e (addInvoiceAndPayments db inv ps) =
        SchoolStatementService.build_invoice_rows scid s e db := by
    intro scid s e
    unfold SchoolStatementService.build_invoice_rows
    simp only [show (addInvoiceAndPayments db inv ps).invoices = db.invoices ++ [inv] from rfl,
      show (addInvoiceAndPayments db inv ps).students = db.students from rfl]
    rw [hfilterSch scid s e]
    by_cases hemp : (db.invoices.filter (fun i =>
        SchoolStatementService.invFilter s e i &&
          db.students.any (SchoolStatementService.studentJoin scid i))).isEmpty = true
    · rw [if_pos hemp, if_pos hemp]
    · rw [if_neg hemp, if_neg hemp]
      apply List.map_congr_left
      intro i hi
      have hne : i.id ≠ inv.id := hfresh i (List.mem_filter.mp hi).1
      simp only [hpaidrow i.id hne]
  constructor
  · intro sid s e b
    unfold StudentStatementService.get_statement
    rw [show (addInvoiceAndPayments db inv ps).students = db.students from rfl]
    cases db.students.find? (fun s => s.id == sid && s.deletedAt.isNone) with
    | none => rfl
    | some student =>
      simp only [htotinvStu, htotpaidStu, hrowsStu,
        show (addInvoiceAndPayments db inv ps).schools = db.schools from rfl]
  · intro scid s e b
    unfold SchoolStatementService.get_statement
    rw [show (addInvoiceAndPayments db inv ps).schools = db.schools from rfl]
    cases db.schools.find? (fun sc => sc.id == scid && sc.deletedAt.isNone) with
    | none => rfl
    | some school =>
      simp only [htotinvSch, htotpaidSch, hrowsSch,
        show (addInvoiceAndPayments db inv ps).students = db.students from rfl]

def c7Inv : Invoice := ⟨9, 1, 5, 15, 5000, .cancelled, none⟩

def c7Ps : List Payment := [⟨10, 9, 6, 400, .card, none⟩]

theorem C7_witness :
    StudentStatementService.get_statement 1 0 10 true
        (addInvoiceAndPayments c6Db c7Inv c7Ps) =
      StudentStatementService.get_statement 1 0 10 true c6Db ∧
    SchoolStatementService.get_statement 1 0 10 true
        (addInvoiceAndPayments c6Db c7Inv c7Ps) =
      SchoolStatementService.get_statement 1 0 10 true c6Db :=
  ⟨(C7_cancelled_excluded c6Db c7Inv c7Ps (by decide) (by decide) (by decide)).1 1 0 10 true,
    (C7_cancelled_excluded c6Db c7Inv c7Ps (by decide) (by decide) (by decide)).2 1 0 10 true⟩

end SchoolBilling
